import Mathlib

/-!
mikroBUS manifest parsing (`mikrobus_manifest.c`)

A shallow embedding of the manifest parser.  The C code is stateful: it keeps
an intrusive list of descriptors (`info->manifest_descs`) that point into the
manifest buffer, and a list of assembled devices (`info->devices`).  The
embedding passes that state explicitly.

Conventions of the embedding.

* The header `mikrobus_manifest.h` is not part of the source tree.  Field
  offsets and structure sizes follow the binary layout of the specification
  (section 6); the values it leaves open (tags, supported major version,
  header padding) are parameters (`Decls`).
* The manifest buffer is a `List Nat`; a byte is read as `b % 256`.
* Pointers into the buffer are `Int` offsets from the start of the buffer.
  A read outside the buffer is undefined in C and stops the run with
  `Run.fault`.
* `size_t` is 64 bit wide; arithmetic on it is taken modulo `2 ^ 64`.
* Loads through `u16 *`, `u32 *`, `u64 *` (host order) are little-endian, the
  byte order of the hosts the driver is built for; `le16_to_cpu` and
  `le32_to_cpu` are the little-endian decodings on every host.
* Allocation (`kzalloc`, `kmemdup`) always succeeds.
* Several functions test `descriptor->type` before `descriptor` has been
  assigned (or after the node it points to has been freed).  The value read is
  indeterminate; the outcome of each such test is taken from an oracle
  `u : Nat → Bool`, consumed one answer per test (`Mach.tick`).  General
  theorems quantify over the oracle; evaluations at concrete manifests use the
  oracles `pass` (every such test passes) and `skip` (every such test fails).
-/

namespace Mikrobus

/-! ## Outcomes -/

/-- Outcome of running a piece of the C code: a result, a `fault` (undefined
behaviour: a read outside the buffer or outside a copied array, a use of a
freed or invalid list node), or `fuel` (the loop budget of the model ran
out). -/
inductive Run (α : Type) where
  | ok (a : α)
  | fault
  | fuel
  deriving DecidableEq, Repr

/-- Sequencing of runs: the first stop wins. -/
def Run.bind {α β : Type} (x : Run α) (f : α → Run β) : Run β :=
  match x with
  | .ok a => f a
  | .fault => .fault
  | .fuel => .fuel

instance : Monad Run where
  pure := Run.ok
  bind := Run.bind

/-! ## Constants -/

/-- Linux `EINVAL`. -/
def EINVAL : Nat := 22
/-- Linux `ENOMEM`. -/
def ENOMEM : Nat := 12
/-- Linux `ENOENT`. -/
def ENOENT : Nat := 2

/-- Declarations of `mikrobus_manifest.h` whose values the manifest layout
description leaves open.  The header file is not part of the source tree, so
they are parameters: the supported major version, the padding that follows the
nine header fields, the descriptor type tags and the property type tags. -/
structure Decls where
  MIKROBUS_VERSION_MAJOR : Nat
  header_pad : Nat
  MIKROBUS_TYPE_INVALID : Nat
  MIKROBUS_TYPE_STRING : Nat
  MIKROBUS_TYPE_PROPERTY : Nat
  MIKROBUS_TYPE_DEVICE : Nat
  MIKROBUS_PROPERTY_TYPE_LINK : Nat
  MIKROBUS_PROPERTY_TYPE_GPIO_TAG : Nat
  MIKROBUS_PROPERTY_TYPE_U8 : Nat
  MIKROBUS_PROPERTY_TYPE_U16 : Nat
  MIKROBUS_PROPERTY_TYPE_U32 : Nat
  MIKROBUS_PROPERTY_TYPE_U64 : Nat
  deriving DecidableEq, Repr

/-- Modelled from the spec: `sizeof(struct mikrobus_manifest_header)`, the nine
bytes `size:u16, version_major, version_minor, click_stringid, num_devices,
rst_gpio_state, pwm_gpio_state, int_gpio_state` plus padding. -/
def Decls.sizeof_manifest_header (D : Decls) : Nat := 9 + D.header_pad

/-- Modelled from the spec: `sizeof(struct mikrobus_descriptor_header)`,
`size:u16, type:u8` and one pad byte. -/
def sizeof_descriptor_header : Nat := 4

/-- Modelled from the spec: `sizeof(struct mikrobus_descriptor_string)`,
`id:u8, length:u8` before the flexible payload. -/
def sizeof_descriptor_string : Nat := 2

/-- Modelled from the spec: `sizeof(struct mikrobus_descriptor_property)`,
`id:u8, type:u8, propname_stringid:u8, length:u8` before the flexible value. -/
def sizeof_descriptor_property : Nat := 4

/-- Modelled from the spec: `sizeof(struct mikrobus_descriptor_device)`,
`id, driver_stringid, protocol, reg, irq, irq_type, max_speed_hz:u32, mode,
cs_gpio, num_gpio_resources, gpio_link, num_properties, prop_link`, packed. -/
def sizeof_descriptor_device : Nat := 16

/-! ## Memory -/

/-- The byte at offset `i` of the buffer, `0` outside it (used to state
properties; the code reads through `load8`). -/
def byte (data : List Nat) (i : Nat) : Nat := data.getD i 0 % 256

/-- Read of one byte through a pointer into the buffer. -/
def load8 (data : List Nat) (p : Int) : Run Nat :=
  if 0 ≤ p then
    match data[p.toNat]? with
    | some b => .ok (b % 256)
    | none => .fault
  else .fault

/-- Read of a little-endian 16-bit field (`le16_to_cpu`, or a `u16` load on
the little-endian host). -/
def load16 (data : List Nat) (p : Int) : Run Nat := do
  let b0 ← load8 data p
  let b1 ← load8 data (p + 1)
  pure (b0 + 256 * b1)

/-- Read of a little-endian 32-bit field (`le32_to_cpu`, or a `u32` load on
the little-endian host). -/
def load32 (data : List Nat) (p : Int) : Run Nat := do
  let lo ← load16 data p
  let hi ← load16 data (p + 2)
  pure (lo + 65536 * hi)

/-- The call `kmemdup(p, n, GFP_KERNEL)`: the `n` bytes at `p`, read from the
buffer. -/
def kmemdup (data : List Nat) (p : Int) : Nat → Run (List Nat)
  | 0 => .ok []
  | n + 1 => do
    let b ← load8 data p
    let bs ← kmemdup data (p + 1) n
    pure (b :: bs)

/-- The little-endian value of a list of bytes. -/
def le_value : List Nat → Nat
  | [] => 0
  | b :: bs => b % 256 + 256 * le_value bs

/-! ## Data model -/

/-- Value of a C `char *` result: `NULL`, `ERR_PTR(-e)`, or an owned buffer. -/
inductive CharPtr where
  | null
  | err (e : Nat)
  | str (s : List Nat)
  deriving DecidableEq, Repr

/-- Value of a C `u8 *` result: `NULL`, `ERR_PTR(-e)`, or a copied array. -/
inductive BytePtr where
  | null
  | err (e : Nat)
  | arr (a : List Nat)
  deriving DecidableEq, Repr

/-- The read `p[i]` through a `u8 *`: defined only inside a copied array. -/
def BytePtr.index : BytePtr → Nat → Run Nat
  | .arr a, i =>
    match a[i]? with
    | some b => .ok b
    | none => .fault
  | .null, _ => .fault
  | .err _, _ => .fault

/-- Linux `enum dev_prop_type`, the integer members. -/
inductive dev_prop_type where
  | U8
  | U16
  | U32
  | U64
  deriving DecidableEq, Repr

/-- Width in bytes of an element (`sizeof(u8)`, ..., `sizeof(u64)`). -/
def dev_prop_type.width : dev_prop_type → Nat
  | .U8 => 1
  | .U16 => 2
  | .U32 => 4
  | .U64 => 8

/-- Linux `struct property_entry` as the `PROPERTY_ENTRY_Un` and
`PROPERTY_ENTRY_Un_ARRAY_LEN` initialisers fill it: `length` is in bytes, a
scalar is stored inline in `value`, an array is referenced through `pointer`
(here a pointer into the manifest buffer). -/
structure property_entry where
  name : CharPtr
  length : Nat
  is_array : Bool
  type : dev_prop_type
  value : Nat
  pointer : Int
  deriving DecidableEq, Repr

/-- Value of a C `struct property_entry *`. -/
inductive PropsPtr where
  | null
  | err (e : Nat)
  | arr (a : List property_entry)
  deriving DecidableEq, Repr

/-- One row of a `struct gpiod_lookup_table`. -/
structure gpiod_lookup where
  chip_hwnum : Nat
  con_id : CharPtr
  deriving DecidableEq, Repr

/-- The record `struct click_device_info`. -/
structure click_device_info where
  id : Nat
  drv_name : CharPtr
  protocol : Nat
  reg : Nat
  irq : Nat
  irq_type : Nat
  max_speed_hz : Nat
  mode : Nat
  cs_gpio : Nat
  num_gpio_resources : Nat
  num_properties : Nat
  properties : PropsPtr
  gpio_lookup : Option (List gpiod_lookup)
  deriving DecidableEq, Repr

/-- The record `struct manifest_desc`: a node of the descriptor list.  `addr`
stands for the address of the `kzalloc`ed node (its identity); `data` points
into the manifest buffer, just behind the descriptor header. -/
structure manifest_desc where
  addr : Nat
  size : Nat
  data : Int
  type : Nat
  deriving DecidableEq, Repr

/-- The record `struct click_board_info`, the fields the parser uses. -/
structure click_board_info where
  name : CharPtr
  num_devices : Nat
  rst_gpio_state : Nat
  pwm_gpio_state : Nat
  int_gpio_state : Nat
  manifest_descs : List manifest_desc
  devices : List click_device_info
  deriving DecidableEq, Repr

/-- The state a run works on: the board info, the number of indeterminate
tests answered so far, and the number of list nodes allocated so far. -/
structure Mach where
  info : click_board_info
  tick : Nat
  nalloc : Nat
  deriving DecidableEq, Repr

/-- Replace the descriptor list. -/
def Mach.set_descs (m : Mach) (l : List manifest_desc) : Mach :=
  { m with info := { m.info with manifest_descs := l } }

/-- One more indeterminate test has been answered. -/
def Mach.tock (m : Mach) : Mach := { m with tick := m.tick + 1 }

/-! ## Descriptor list -/

/-- The function `release_manifest_descriptor`: `list_del` and `kfree` of the
node at `addr`.  Unlinking a node that is not on the list (already freed, or
the list head itself) is a fault. -/
def release_manifest_descriptor (m : Mach) (addr : Nat) : Run Mach :=
  if m.info.manifest_descs.any (fun d => d.addr == addr) then
    .ok (m.set_descs (m.info.manifest_descs.eraseP (fun d => d.addr == addr)))
  else .fault

/-- The function `release_manifest_descriptors`: every node is released. -/
def release_manifest_descriptors (m : Mach) : Mach := m.set_descs []

/-- The loop `list_for_each_entry(descriptor, &info->manifest_descs, links)`
with a `break` at the first node that passes `test`.  Returns the node found
(if any) and the data pointer assigned last (`last` when the list is empty). -/
def list_scan (test : manifest_desc → Run Bool) :
    List manifest_desc → Option Int → Run (Option manifest_desc × Option Int)
  | [], last => .ok (none, last)
  | d :: ds, _ => do
    let hit ← test d
    if hit then pure (some d, some d.data)
    else list_scan test ds (some d.data)

/-- The `switch` of `identify_descriptor` on a frame of accepted type `type` at
`desc`: the value of `expected_size`.  For a String frame it reads
`desc->string.length` (offset 5 of the frame), for a Property frame
`desc->property.length` (offset 7); nothing in the source checks that these
bytes lie inside the `size` remaining bytes.  The source never compares the
value with the declared size. -/
def expected_size (D : Decls) (data : List Nat) (desc : Int) (type : Nat) : Run Nat :=
  if type = D.MIKROBUS_TYPE_STRING then do
    let length ← load8 data (desc + 5)
    pure ((sizeof_descriptor_header + sizeof_descriptor_string + length + 3) / 4 * 4)
  else if type = D.MIKROBUS_TYPE_PROPERTY then do
    let length ← load8 data (desc + 7)
    pure ((sizeof_descriptor_header + sizeof_descriptor_property + length + 3) / 4 * 4)
  else if type = D.MIKROBUS_TYPE_DEVICE then
    pure (sizeof_descriptor_header + sizeof_descriptor_device)
  else pure sizeof_descriptor_header

/-- The function `identify_descriptor(info, desc, size)`.  The result is the
returned `int`.  For an accepted type the `switch` is run first (its reads of
the length field can leave the buffer); its value `expected_size` is not used
afterwards. -/
def identify_descriptor (D : Decls) (data : List Nat) (m : Mach) (desc : Int) (size : Nat) :
    Run (Int × Mach) :=
  if size < sizeof_descriptor_header then .ok (-(EINVAL : Int), m)
  else do
    let desc_size ← load16 data desc
    if desc_size > size then .ok (-(EINVAL : Int), m)
    else do
      let type ← load8 data (desc + 2)
      if type = D.MIKROBUS_TYPE_STRING ∨ type = D.MIKROBUS_TYPE_PROPERTY
          ∨ type = D.MIKROBUS_TYPE_DEVICE then do
        let _ ← expected_size D data desc type
        let descriptor : manifest_desc :=
          { addr := m.nalloc, size := desc_size,
            data := desc + sizeof_descriptor_header, type := type }
        .ok ((desc_size : Int),
          { (m.set_descs (m.info.manifest_descs ++ [descriptor])) with nalloc := m.nalloc + 1 })
      else .ok (-(EINVAL : Int), m)

/-! ## String resolver -/

/-- The function `mikrobus_string_get(info, string_id)`.  The test
`descriptor->type == MIKROBUS_TYPE_STRING` reads an unassigned pointer: its
outcome is `u m.tick`.  The list walk compares the first payload byte of every
node, whatever its type. -/
def mikrobus_string_get (u : Nat → Bool) (data : List Nat) (m : Mach) (string_id : Nat) :
    Run (CharPtr × Mach) :=
  if string_id = 0 then .ok (.null, m)
  else
    let g := u m.tick
    let m := m.tock
    if !g then .ok (.err ENOENT, m)
    else do
      let (r, _) ← list_scan (fun d => do
        let id ← load8 data d.data
        pure (id == string_id)) m.info.manifest_descs none
      match r with
      | none => .ok (.err ENOENT, m)
      | some d => do
        let length ← load8 data (d.data + 1)
        let string ← kmemdup data (d.data + 2) (length + 1)
        let m ← release_manifest_descriptor m d.addr
        .ok (.str (string.set length 0), m)

/-! ## Property resolver -/

/-- The body of one `case` of the `switch` in `mikrobus_property_entry_get`:
`kmemdup` of `length * sizeof(type)` value bytes, then a scalar entry when
`length == 1` and an array entry over the value bytes in the buffer
otherwise. -/
def property_entry_of (data : List Nat) (p : Int) (prop_name : CharPtr) (t : dev_prop_type) :
    Run property_entry := do
  let length ← load8 data (p + 3)
  let val ← kmemdup data (p + 4) (length * t.width)
  if length = 1 then
    pure { name := prop_name, length := t.width, is_array := false, type := t,
           value := le_value val, pointer := 0 }
  else
    pure { name := prop_name, length := length * t.width, is_array := true, type := t,
           value := 0, pointer := p + 4 }

/-- The `switch (desc_property->type)` of `mikrobus_property_entry_get`;
`none` is the `default:` branch. -/
def property_decode (D : Decls) (data : List Nat) (p : Int) (prop_name : CharPtr) (ty : Nat) :
    Run (Option property_entry) :=
  if ty = D.MIKROBUS_PROPERTY_TYPE_U8 then
    (property_entry_of data p prop_name .U8).bind (fun e => .ok (some e))
  else if ty = D.MIKROBUS_PROPERTY_TYPE_U16 then
    (property_entry_of data p prop_name .U16).bind (fun e => .ok (some e))
  else if ty = D.MIKROBUS_PROPERTY_TYPE_U32 then
    (property_entry_of data p prop_name .U32).bind (fun e => .ok (some e))
  else if ty = D.MIKROBUS_PROPERTY_TYPE_U64 then
    (property_entry_of data p prop_name .U64).bind (fun e => .ok (some e))
  else .ok none

/-- Read of `n` consecutive host-order integers of `w` bytes each at `p`. -/
def read_elems (data : List Nat) (w : Nat) : Int → Nat → Run (List Nat)
  | _, 0 => .ok []
  | p, n + 1 => do
    let bs ← kmemdup data p w
    let rest ← read_elems data w (p + (w : Int)) n
    pure (le_value bs :: rest)

/-- The elements a consumer reads from an array entry: `length / width`
host-order integers at `pointer`. -/
def property_entry.elems (data : List Nat) (e : property_entry) : Run (List Nat) :=
  read_elems data e.type.width e.pointer (e.length / e.type.width)

/-- Locals of `mikrobus_property_entry_get` that live across iterations:
`found` (never reset), `desc_property`, and `descriptor` (`some a`: the node
at `a`, possibly freed meanwhile; `none`: unassigned, or the list head after a
walk without match). -/
structure EntryLocals where
  found : Bool
  desc_property : Option Int
  descriptor : Option Nat
  deriving DecidableEq, Repr

/-- The `for` loop of `mikrobus_property_entry_get`, `k` iterations left,
at index `i`, `acc` the entries filled so far. -/
def property_entry_loop (D : Decls) (u : Nat → Bool) (data : List Nat) (prop_link : BytePtr) :
    Nat → Nat → EntryLocals → List property_entry → Mach → Run (PropsPtr × Mach)
  | 0, _, _, acc, m => .ok (.arr acc, m)
  | k + 1, i, loc, acc, m => do
    let g := u m.tick
    let m := m.tock
    let loc ← (if g then do
        let (r, last) ← list_scan (fun d => do
          let id ← load8 data d.data
          let want ← prop_link.index i
          pure (id == want)) m.info.manifest_descs loc.desc_property
        match r with
        | some d => pure { found := true, desc_property := last, descriptor := some d.addr }
        | none => pure { found := loc.found, desc_property := last, descriptor := none }
      else pure loc : Run EntryLocals)
    if !loc.found then .ok (.err ENOENT, m)
    else
      match loc.desc_property with
      | none => .fault
      | some p => do
        let sid ← load8 data (p + 2)
        let (prop_name, m) ← mikrobus_string_get u data m sid
        let ty ← load8 data (p + 1)
        let e ← property_decode D data p prop_name ty
        match e with
        | none => .ok (.err EINVAL, m)
        | some e => do
          let m ← (match loc.descriptor with
            | some a => release_manifest_descriptor m a
            | none => .fault)
          property_entry_loop D u data prop_link k (i + 1) loc (acc ++ [e]) m

/-- The function `mikrobus_property_entry_get(info, prop_link, num_properties)`. -/
def mikrobus_property_entry_get (D : Decls) (u : Nat → Bool) (data : List Nat) (m : Mach)
    (prop_link : BytePtr) (num_properties : Nat) : Run (PropsPtr × Mach) :=
  property_entry_loop D u data prop_link num_properties 0
    { found := false, desc_property := none, descriptor := none } [] m

/-- The function `mikrobus_property_link_get(info, prop_id, prop_type)`. -/
def mikrobus_property_link_get (u : Nat → Bool) (data : List Nat) (m : Mach)
    (prop_id prop_type : Nat) : Run (BytePtr × Mach) :=
  if prop_id = 0 then .ok (.null, m)
  else
    let g := u m.tick
    let m := m.tock
    if !g then .ok (.err ENOENT, m)
    else do
      let (r, _) ← list_scan (fun d => do
        let id ← load8 data d.data
        if id == prop_id then do
          let t ← load8 data (d.data + 1)
          pure (t == prop_type % 256)
        else pure false) m.info.manifest_descs none
      match r with
      | none => .ok (.err ENOENT, m)
      | some d => do
        let length ← load8 data (d.data + 3)
        let val_u8 ← kmemdup data (d.data + 4) length
        let m ← release_manifest_descriptor m d.addr
        .ok (.arr val_u8, m)

/-! ## Device assembler -/

/-- Outcome of the test `descriptor->type == MIKROBUS_TYPE_PROPERTY` in the
GPIO loop of `mikrobus_manifest_attach_device`: when `descriptor` points to a
node that is still on the list the test reads that node, otherwise
(unassigned, list head, freed node) the oracle answers. -/
def gpio_guard (D : Decls) (u : Nat → Bool) (m : Mach) (descriptor : Option Nat) : Bool × Mach :=
  match descriptor with
  | none => (u m.tick, m.tock)
  | some a =>
    match m.info.manifest_descs.find? (fun d => d.addr == a) with
    | some d => (d.type == D.MIKROBUS_TYPE_PROPERTY, m)
    | none => (u m.tick, m.tock)

/-- The GPIO `for` loop of `mikrobus_manifest_attach_device`, `k` iterations
left, at index `i`; `acc` is the part of the zero-initialised lookup table
behind which the loop writes.  A linked id without a matching node leaves its
row zeroed. -/
def gpio_loop (D : Decls) (u : Nat → Bool) (data : List Nat) (gpio_desc_link : BytePtr) :
    Nat → Nat → Option Nat → List gpiod_lookup → Mach → Run (List gpiod_lookup × Mach)
  | 0, _, _, acc, m => .ok (acc, m)
  | k + 1, i, descriptor, acc, m => do
    let (g, m) := gpio_guard D u m descriptor
    if g then do
      let (r, _) ← list_scan (fun d => do
        let id ← load8 data d.data
        let want ← gpio_desc_link.index i
        pure (id == want)) m.info.manifest_descs none
      match r with
      | some d => do
        let chip_hwnum ← load8 data (d.data + 4)
        let sid ← load8 data (d.data + 2)
        let (con_id, m) ← mikrobus_string_get u data m sid
        gpio_loop D u data gpio_desc_link k (i + 1) (some d.addr)
          (acc ++ [{ chip_hwnum := chip_hwnum, con_id := con_id }]) m
      | none =>
        gpio_loop D u data gpio_desc_link k (i + 1) none
          (acc ++ [{ chip_hwnum := 0, con_id := .null }]) m
    else
      gpio_loop D u data gpio_desc_link k (i + 1) descriptor
        (acc ++ [{ chip_hwnum := 0, con_id := .null }]) m

/-- The function `mikrobus_manifest_attach_device(info, dev_desc)`; the result
is the returned `int` (always `0` when allocation succeeds). -/
def mikrobus_manifest_attach_device (D : Decls) (u : Nat → Bool) (data : List Nat) (m : Mach)
    (dev_desc : Int) : Run (Int × Mach) := do
  let id ← load8 data dev_desc
  let driver_stringid ← load8 data (dev_desc + 1)
  let (drv_name, m) ← mikrobus_string_get u data m driver_stringid
  let protocol ← load8 data (dev_desc + 2)
  let reg ← load8 data (dev_desc + 3)
  let irq ← load8 data (dev_desc + 4)
  let irq_type ← load8 data (dev_desc + 5)
  let max_speed_hz ← load32 data (dev_desc + 6)
  let mode ← load8 data (dev_desc + 10)
  let cs_gpio ← load8 data (dev_desc + 11)
  let num_gpio_resources ← load8 data (dev_desc + 12)
  let num_properties ← load8 data (dev_desc + 14)
  let (properties, m) ← (if num_properties > 0 then do
      let prop_link_id ← load8 data (dev_desc + 15)
      let (prop_link, m) ← mikrobus_property_link_get u data m prop_link_id
        D.MIKROBUS_PROPERTY_TYPE_LINK
      mikrobus_property_entry_get D u data m prop_link num_properties
    else pure (PropsPtr.null, m) : Run (PropsPtr × Mach))
  let (gpio_lookup, m) ← (if num_gpio_resources > 0 then do
      let gpio_link ← load8 data (dev_desc + 13)
      let (gpio_desc_link, m) ← mikrobus_property_link_get u data m gpio_link
        D.MIKROBUS_PROPERTY_TYPE_GPIO_TAG
      let (table, m) ← gpio_loop D u data gpio_desc_link num_gpio_resources 0 none [] m
      pure (some table, m)
    else pure (none, m) : Run (Option (List gpiod_lookup) × Mach))
  let dev : click_device_info :=
    { id := id, drv_name := drv_name, protocol := protocol, reg := reg, irq := irq,
      irq_type := irq_type, max_speed_hz := max_speed_hz, mode := mode, cs_gpio := cs_gpio,
      num_gpio_resources := num_gpio_resources, num_properties := num_properties,
      properties := properties, gpio_lookup := gpio_lookup }
  .ok (0, { m with info := { m.info with devices := m.info.devices ++ [dev] } })

/-- The node that follows the node at `a` on the list; `none` when `a` is the
last node (the list head follows) or is not on the list. -/
def next_entry : List manifest_desc → Nat → Option Nat
  | [], _ => none
  | d :: ds, a => if d.addr == a then ds.head?.map (fun x => x.addr) else next_entry ds a

/-- The loop `list_for_each_entry_safe(desc, next, &info->manifest_descs,
links)` of `mikrobus_manifest_parse_devices`, at node `desc` with `next`
already read (`none`: the list head).  The body is run for every node, whatever
its type; the result of `mikrobus_manifest_attach_device` is dropped.  Stepping
to a `next` that the body has freed is a fault. -/
def parse_devices_loop (D : Decls) (u : Nat → Bool) (data : List Nat) :
    Nat → manifest_desc → Option Nat → Nat → Mach → Run (Nat × Mach)
  | 0, _, _, _, _ => .fuel
  | f + 1, desc, next, devcount, m => do
    let (_, m) ← mikrobus_manifest_attach_device D u data m desc.data
    let devcount := devcount + 1
    match next with
    | none => .ok (devcount, m)
    | some a =>
      match m.info.manifest_descs.find? (fun d => d.addr == a) with
      | none => .fault
      | some d => parse_devices_loop D u data f d (next_entry m.info.manifest_descs a) devcount m

/-- The function `mikrobus_manifest_parse_devices(info)`.  The test
`desc->type != MIKROBUS_TYPE_DEVICE` reads an unassigned pointer: its outcome
is `u m.tick`.  The loop cannot run longer than the list is at its start. -/
def mikrobus_manifest_parse_devices (D : Decls) (u : Nat → Bool) (data : List Nat) (m : Mach) :
    Run (Nat × Mach) :=
  if !m.info.devices.isEmpty then .ok (0, m)
  else
    let g := u m.tick
    let m := m.tock
    if !g then .ok (0, m)
    else
      match m.info.manifest_descs with
      | [] => .ok (0, m)
      | d :: ds =>
        parse_devices_loop D u data (ds.length + 1) d (ds.head?.map (fun x => x.addr)) 0 m

/-! ## Manifest driver -/

/-- The `while (size)` loop of `mikrobus_manifest_parse`.  A negative result
of `identify_descriptor` only sets the local `result` (which is never read);
the cursor and the remaining size are then updated with that negative value.
`fuel` bounds the number of iterations of the model. -/
def descriptor_loop (D : Decls) (data : List Nat) : Nat → Mach → Int → Nat → Run Mach
  | 0, m, _, size => if size = 0 then .ok m else .fuel
  | fuel + 1, m, desc, size =>
    if size = 0 then .ok m
    else do
      let (desc_size, m) ← identify_descriptor D data m desc size
      descriptor_loop D data fuel m (desc + desc_size)
        ((((size : Int) - desc_size) % (2 ^ 64 : Int)).toNat)

/-- The function `mikrobus_manifest_parse(info, data, size)`. -/
def mikrobus_manifest_parse (D : Decls) (u : Nat → Bool) (fuel : Nat) (data : List Nat)
    (m : Mach) (size : Nat) : Run (Bool × Mach) :=
  if !m.info.manifest_descs.isEmpty then .ok (false, m)
  else if size < D.sizeof_manifest_header then .ok (false, m)
  else do
    let manifest_size ← load16 data 0
    if manifest_size ≠ size then .ok (false, m)
    else do
      let version_major ← load8 data 2
      if version_major > D.MIKROBUS_VERSION_MAJOR then .ok (false, m)
      else do
        let m ← descriptor_loop D data fuel m D.sizeof_manifest_header
          (size - D.sizeof_manifest_header)
        let click_stringid ← load8 data 4
        let (name, m) ← mikrobus_string_get u data m click_stringid
        let num_devices ← load8 data 5
        let rst_gpio_state ← load8 data 6
        let pwm_gpio_state ← load8 data 7
        let int_gpio_state ← load8 data 8
        let m : Mach := { m with info := { m.info with
          name := name, num_devices := num_devices, rst_gpio_state := rst_gpio_state,
          pwm_gpio_state := pwm_gpio_state, int_gpio_state := int_gpio_state } }
        let (_, m) ← mikrobus_manifest_parse_devices D u data m
        .ok (true, release_manifest_descriptors m)

/-! ## Header validation -/

/-- The function `mikrobus_manifest_header_validate(data, size)`. -/
def mikrobus_manifest_header_validate (D : Decls) (data : List Nat) (size : Nat) : Run Nat :=
  if size < D.sizeof_manifest_header then .ok 0
  else do
    let manifest_size ← load16 data 0
    let version_major ← load8 data 2
    if version_major > D.MIKROBUS_VERSION_MAJOR then .ok 0
    else do
      let click_stringid ← load8 data 4
      if click_stringid < 1 then .ok 0
      else do
        let num_devices ← load8 data 5
        if num_devices < 1 then .ok 0
        else .ok manifest_size

/-! ## Concrete instance used for evaluation -/

/-- Modelled from the spec: an instance of the declarations of
`mikrobus_manifest.h` used to run the code on concrete manifests.  The spec
fixes neither the tag values nor the header padding; the instance takes major
version `0`, a header padded to 12 bytes, descriptor tags `0..3` and property
tags `1..6`. -/
def D0 : Decls :=
  { MIKROBUS_VERSION_MAJOR := 0
    header_pad := 3
    MIKROBUS_TYPE_INVALID := 0
    MIKROBUS_TYPE_STRING := 1
    MIKROBUS_TYPE_PROPERTY := 2
    MIKROBUS_TYPE_DEVICE := 3
    MIKROBUS_PROPERTY_TYPE_LINK := 1
    MIKROBUS_PROPERTY_TYPE_GPIO_TAG := 2
    MIKROBUS_PROPERTY_TYPE_U8 := 3
    MIKROBUS_PROPERTY_TYPE_U16 := 4
    MIKROBUS_PROPERTY_TYPE_U32 := 5
    MIKROBUS_PROPERTY_TYPE_U64 := 6 }

/-- A freshly initialised board info: no name, empty lists. -/
def info0 : click_board_info :=
  { name := .null, num_devices := 0, rst_gpio_state := 0, pwm_gpio_state := 0,
    int_gpio_state := 0, manifest_descs := [], devices := [] }

/-- The start state of a run on a fresh board info. -/
def m0 : Mach := { info := info0, tick := 0, nalloc := 0 }

/-- A manifest header for `D0`: total size `n` (below 256), version 0.1,
name string id `click`, `ndev` devices, pin states 1, 2, 3. -/
def header0 (n click ndev : Nat) : List Nat := [n, 0, 0, 1, click, ndev, 1, 2, 3, 0, 0, 0]

/-- The oracle under which every indeterminate test passes. -/
def pass : Nat → Bool := fun _ => true

/-- The oracle under which every indeterminate test fails. -/
def skip : Nat → Bool := fun _ => false

/-- The state after the descriptor loop has indexed the body of a manifest
for `D0` (header of 12 bytes, total size `n`). -/
def indexed (data : List Nat) (n : Nat) : Run Mach :=
  descriptor_loop D0 data 16 m0 12 (n - 12)

/-- A manifest whose last frame has the unknown type byte `0xFF`.  The first
frame is a String descriptor (id 7, 22 payload bytes) whose payload starts
with the bytes `26, 0, 1`. -/
def manifest_bad_type : List Nat :=
  header0 44 0 1
    ++ [28, 0, 1, 0, 7, 22, 26, 0, 1, 0, 0, 0, 0, 0, 0, 0, 0, 0, 0, 0, 0, 0, 0, 0, 0, 0, 0, 0]
    ++ [4, 0, 255, 0]

/-- A manifest with one String descriptor (id 7, empty payload) that nothing
references, followed by one Device descriptor (id 1, no driver name, no
properties, no GPIO resources). -/
def manifest_string_device : List Nat :=
  header0 40 0 1
    ++ [8, 0, 1, 0, 7, 0, 0, 0]
    ++ [20, 0, 3, 0, 1, 0, 5, 6, 0, 0, 0, 0, 0, 0, 2, 4, 0, 0, 0, 0]

/-- Scenario A, String id 1 `"TempSensor"`. -/
def frame_TempSensor : List Nat :=
  [16, 0, 1, 0, 1, 10, 84, 101, 109, 112, 83, 101, 110, 115, 111, 114]

/-- Scenario A, String id 2 `"ClickBoardX"`, padded to 20 bytes. -/
def frame_ClickBoardX : List Nat :=
  [20, 0, 1, 0, 2, 11, 67, 108, 105, 99, 107, 66, 111, 97, 114, 100, 88, 0, 0, 0]

/-- Scenario A, the Device descriptor: id 9, `driver_stringid = 1`, no
properties, no GPIO resources. -/
def frame_device : List Nat :=
  [20, 0, 3, 0, 9, 1, 1, 0, 0, 0, 0, 0, 0, 0, 0, 0, 0, 0, 0, 0]

/-- Scenario A in the order strings first: header (`click_stringid = 2`, one
device), `"TempSensor"`, `"ClickBoardX"`, the device. -/
def scenario_A : List Nat :=
  header0 68 2 1 ++ frame_TempSensor ++ frame_ClickBoardX ++ frame_device

/-- Scenario A in each of the six orders of its three descriptors. -/
def scenario_A_orders : List (List Nat) :=
  [ header0 68 2 1 ++ frame_TempSensor ++ frame_ClickBoardX ++ frame_device,
    header0 68 2 1 ++ frame_TempSensor ++ frame_device ++ frame_ClickBoardX,
    header0 68 2 1 ++ frame_ClickBoardX ++ frame_TempSensor ++ frame_device,
    header0 68 2 1 ++ frame_ClickBoardX ++ frame_device ++ frame_TempSensor,
    header0 68 2 1 ++ frame_device ++ frame_TempSensor ++ frame_ClickBoardX,
    header0 68 2 1 ++ frame_device ++ frame_ClickBoardX ++ frame_TempSensor ]

/-- The C string `"ClickBoardX"` with its terminating NUL. -/
def str_ClickBoardX : List Nat := [67, 108, 105, 99, 107, 66, 111, 97, 114, 100, 88, 0]

/-- Scenario B: a Device descriptor (at offset 12, payload at 16) with
`num_properties = 2` and `prop_link = 5`; a Link property id 5 holding the
single id 6; a U8 property id 6 with value 42. -/
def manifest_short_link : List Nat :=
  header0 56 0 1
    ++ [20, 0, 3, 0, 1, 0, 5, 6, 0, 0, 0, 0, 0, 0, 2, 4, 0, 0, 2, 5]
    ++ [12, 0, 2, 0, 5, 1, 0, 1, 6, 0, 0, 0]
    ++ [12, 0, 2, 0, 6, 3, 0, 1, 42, 0, 0, 0]

/-- A Device descriptor (payload at 16) with `num_properties = 1` and
`prop_link = 5`; a Link property id 5 holding the two ids 6 and 7; U8
properties id 6 (value 42) and id 7 (value 43). -/
def manifest_long_link : List Nat :=
  header0 68 0 1
    ++ [20, 0, 3, 0, 1, 0, 5, 6, 0, 0, 0, 0, 0, 0, 2, 4, 0, 0, 1, 5]
    ++ [12, 0, 2, 0, 5, 1, 0, 2, 6, 7, 0, 0]
    ++ [12, 0, 2, 0, 6, 3, 0, 1, 42, 0, 0, 0]
    ++ [12, 0, 2, 0, 7, 3, 0, 1, 43, 0, 0, 0]

/-- The scalar U8 entry without a name and with value `v`. -/
def u8_entry (v : Nat) : property_entry :=
  { name := .null, length := 1, is_array := false, type := .U8, value := v, pointer := 0 }

/-- A manifest with a String descriptor id 1 (`"a"`) and a U8 Property
descriptor that also has id 1. -/
def manifest_string_property : List Nat :=
  header0 32 0 1
    ++ [8, 0, 1, 0, 1, 1, 97, 0]
    ++ [12, 0, 2, 0, 1, 3, 0, 1, 42, 0, 0, 0]

/-- A manifest with a Property frame of declared size 8 (descriptor header
and fixed fields, no value bytes) that says type U32, length 1, followed by a
Device frame. -/
def manifest_short_property : List Nat :=
  header0 40 0 1
    ++ [8, 0, 2, 0, 6, 5, 0, 1]
    ++ [20, 0, 3, 0, 1, 0, 5, 6, 0, 0, 0, 0, 0, 0, 2, 4, 0, 0, 0, 0]

/-- A manifest that holds only a Device descriptor: id 1, protocol 5, reg 6,
`max_speed_hz` 1000000 (bytes `64, 66, 15, 0`), mode 2, cs_gpio 4. -/
def manifest_one_device : List Nat :=
  header0 32 0 1 ++ [20, 0, 3, 0, 1, 0, 5, 6, 0, 0, 64, 66, 15, 0, 2, 4, 0, 0, 0, 0]

/-- The state after indexing `manifest_one_device`. -/
def state_one_device : Mach :=
  { (m0.set_descs [{ addr := 0, size := 20, data := 16, type := 3 }]) with nalloc := 1 }

/-- Scenario C: a Property descriptor id 6 of type U32 with length 2 and the
value bytes `01 00 00 00 02 00 00 00`. -/
def manifest_u32_array : List Nat :=
  header0 28 0 1 ++ [16, 0, 2, 0, 6, 5, 0, 2, 1, 0, 0, 0, 2, 0, 0, 0]

/-- The state after indexing `manifest_u32_array`. -/
def state_u32_array : Mach :=
  { (m0.set_descs [{ addr := 0, size := 16, data := 16, type := 2 }]) with nalloc := 1 }

/-! ## Notions used to state the properties -/

/-- Modelled from the spec: the fixed fields of a device record written back in
the wire layout of the Device descriptor body (the three id references
`driver_stringid`, `gpio_link`, `prop_link` are not fields of the record):
offsets 0, 2, 3, 4, 5, 6..9 (speed, little-endian), 10, 11, 12, 14. -/
def device_fixed_encode (dev : click_device_info) : List Nat :=
  [dev.id, dev.protocol, dev.reg, dev.irq, dev.irq_type,
   dev.max_speed_hz % 256, dev.max_speed_hz / 256 % 256,
   dev.max_speed_hz / 65536 % 256, dev.max_speed_hz / 16777216 % 256,
   dev.mode, dev.cs_gpio, dev.num_gpio_resources, dev.num_properties]

/-- The bytes of the Device descriptor body at offset `p` that hold the fixed
fields, in wire order. -/
def device_fixed_bytes (data : List Nat) (p : Nat) : List Nat :=
  [byte data p, byte data (p + 2), byte data (p + 3), byte data (p + 4), byte data (p + 5),
   byte data (p + 6), byte data (p + 7), byte data (p + 8), byte data (p + 9),
   byte data (p + 10), byte data (p + 11), byte data (p + 12), byte data (p + 14)]

/-- The little-endian integer held in the `w` bytes at offset `q` of the
buffer. -/
def le_at (data : List Nat) (q w : Nat) : Nat :=
  le_value ((List.range w).map (fun j => byte data (q + j)))

/-- The property type tag of the manifest that stands for an element type. -/
def Decls.prop_tag (D : Decls) : dev_prop_type → Nat
  | .U8 => D.MIKROBUS_PROPERTY_TYPE_U8
  | .U16 => D.MIKROBUS_PROPERTY_TYPE_U16
  | .U32 => D.MIKROBUS_PROPERTY_TYPE_U32
  | .U64 => D.MIKROBUS_PROPERTY_TYPE_U64

/-- The four integer property tags are different values (they are `case`
labels of one `switch`). -/
def Decls.prop_tags_distinct (D : Decls) : Prop :=
  ∀ s t : dev_prop_type, D.prop_tag s = D.prop_tag t → s = t

/-- The entry `e` is the decoding, with element type `t`, of a Property
descriptor with length field `len` whose value payload starts at offset `v` of
the buffer: a scalar holding the little-endian integer of the first `width t`
value bytes when `len = 1`, otherwise an array over the value bytes, of
exactly `len` elements, the `i`-th being the little-endian integer at value
offset `i * width t`. -/
def decodes (data : List Nat) (v : Nat) (t : dev_prop_type) (len : Nat) (e : property_entry) :
    Prop :=
  e.type = t
    ∧ (len = 1 → e.is_array = false ∧ e.length = t.width
        ∧ e.value = le_at data v t.width)
    ∧ (len ≠ 1 → e.is_array = true ∧ e.length = len * t.width
        ∧ e.elems data = .ok ((List.range len).map
            (fun i => le_at data (v + i * t.width) t.width)))

/-- The entry `e` is the decoding of some node `d` of the list `L` whose type
byte (`desc_property->type`) is one of the four integer tags: with `len` the
length field of `d` and `t` the element type of the tag, `e` decodes the value
payload of `d` (4 bytes behind `d.data`). -/
def resolved_from (D : Decls) (data : List Nat) (L : List manifest_desc) (e : property_entry) :
    Prop :=
  ∃ d ∈ L, ∃ ty len, load8 data (d.data + 1) = .ok ty ∧ load8 data (d.data + 3) = .ok len
    ∧ (∃ s, ty = D.prop_tag s)
    ∧ ∀ t, ty = D.prop_tag t → decodes data (d.data + 4).toNat t len e

/-- `m'` differs from `m` at most in the answered-test counter and in that
nodes have been taken off the descriptor list. -/
def Mach.shrinks (m m' : Mach) : Prop :=
  m'.info.devices = m.info.devices ∧ m'.info.manifest_descs ⊆ m.info.manifest_descs

/-- The little-endian declared size of the frame at offset `p`
(`le16_to_cpu(desc_header->size)`). -/
def frame_size (data : List Nat) (p : Nat) : Nat := byte data p + 256 * byte data (p + 1)

/-- The type byte of the frame at offset `p` (`desc_header->type`). -/
def frame_type (data : List Nat) (p : Nat) : Nat := byte data (p + 2)

/-- The tag is one of String, Property, Device. -/
def Decls.is_descriptor_type (D : Decls) (t : Nat) : Prop :=
  t = D.MIKROBUS_TYPE_STRING ∨ t = D.MIKROBUS_TYPE_PROPERTY ∨ t = D.MIKROBUS_TYPE_DEVICE

/-- The condition under which `identify_descriptor` accepts the frame at `p`
when `size` bytes remain. -/
def accepts (D : Decls) (data : List Nat) (p size : Nat) : Prop :=
  sizeof_descriptor_header ≤ size ∧ frame_size data p ≤ size
    ∧ D.is_descriptor_type (frame_type data p)

/-- The state after `identify_descriptor` has accepted the frame at `p`: one
node for it at the tail of the list. -/
def Mach.with_frame (m : Mach) (data : List Nat) (p : Nat) : Mach :=
  { (m.set_descs (m.info.manifest_descs ++
      [{ addr := m.nalloc, size := frame_size data p,
         data := (p : Int) + sizeof_descriptor_header, type := frame_type data p }]))
    with nalloc := m.nalloc + 1 }

/-- A frame as a byte list: at least a descriptor header, a declared size
equal to its byte length, and a type tag in String, Property, Device. -/
def well_framed (D : Decls) (f : List Nat) : Prop :=
  sizeof_descriptor_header ≤ f.length ∧ frame_size f 0 = f.length
    ∧ D.is_descriptor_type (frame_type f 0)

/-- The list nodes for a sequence of frames laid out from offset `off` on, the
first node having address `a`: type and declared size of each frame, in
order. -/
def frame_nodes : Nat → Nat → List (List Nat) → List manifest_desc
  | _, _, [] => []
  | a, off, f :: fs =>
    { addr := a, size := f.length, data := (off : Int) + sizeof_descriptor_header,
      type := frame_type f 0 } :: frame_nodes (a + 1) (off + f.length) fs

/-- The String frame of `manifest_string_device`. -/
def frame_string7 : List Nat := [8, 0, 1, 0, 7, 0, 0, 0]

/-- The Device frame of `manifest_string_device`. -/
def frame_device1 : List Nat := [20, 0, 3, 0, 1, 0, 5, 6, 0, 0, 0, 0, 0, 0, 2, 4, 0, 0, 0, 0]

/-- A 12-byte header for `D0` whose size field is 0: version 0.1, name string
id 2, one device. -/
def header_size_zero : List Nat := [0, 0, 0, 1, 2, 1, 1, 2, 3, 0, 0, 0]

/-- The four checks of `mikrobus_manifest_header_validate` on a buffer of
`size` bytes: length, major version, name string id, device count. -/
def header_checks (D : Decls) (data : List Nat) (size : Nat) : Prop :=
  D.sizeof_manifest_header ≤ size ∧ byte data 2 ≤ D.MIKROBUS_VERSION_MAJOR
    ∧ 1 ≤ byte data 4 ∧ 1 ≤ byte data 5

/-- A manifest whose only frame declares size 0 (type String). -/
def manifest_zero_size : List Nat := header0 20 0 1 ++ [0, 0, 1, 0, 7, 0, 0, 0]

/-- A manifest whose first frame is a String frame that declares 4 bytes
(header only), followed by a String frame of 8 bytes. -/
def manifest_header_only : List Nat :=
  header0 24 0 1 ++ [4, 0, 1, 0] ++ [8, 0, 1, 0, 7, 2, 97, 98]

instance (D : Decls) (data : List Nat) (size : Nat) : Decidable (header_checks D data size) := by
  unfold header_checks
  infer_instance

/-- A manifest with a U8 Property descriptor id 1 followed by a String
descriptor id 1 (`"a"`). -/
def manifest_property_string : List Nat :=
  header0 32 0 1
    ++ [12, 0, 2, 0, 1, 3, 0, 1, 42, 0, 0, 0]
    ++ [8, 0, 1, 0, 1, 1, 97, 0]

/-- A manifest with a String descriptor id 1 (`"x"`) followed by a U8
Property descriptor id 1 (value 42) whose name is string id 1. -/
def manifest_string_named_property : List Nat :=
  header0 32 0 1
    ++ [8, 0, 1, 0, 1, 1, 120, 0]
    ++ [12, 0, 2, 0, 1, 3, 1, 1, 42, 0, 0, 0]

/-- The same two descriptors, the Property first. -/
def manifest_named_property_string : List Nat :=
  header0 32 0 1
    ++ [12, 0, 2, 0, 1, 3, 1, 1, 42, 0, 0, 0]
    ++ [8, 0, 1, 0, 1, 1, 120, 0]

/-- A Device descriptor (payload at 16) with `num_gpio_resources = 1` and
`gpio_link = 5`, and a Gpio-typed property id 5 holding the single id 7; no
descriptor has id 7. -/
def manifest_gpio_missing : List Nat :=
  header0 44 0 1
    ++ [20, 0, 3, 0, 1, 0, 5, 6, 0, 0, 0, 0, 0, 0, 2, 4, 1, 5, 0, 0]
    ++ [12, 0, 2, 0, 5, 2, 0, 1, 7, 0, 0, 0]

/-- The same device with a U8 Property id 7 (value 13, name string id 3) and
the String id 3 `"rst"`. -/
def manifest_gpio_present : List Nat :=
  header0 68 0 1
    ++ [20, 0, 3, 0, 1, 0, 5, 6, 0, 0, 0, 0, 0, 0, 2, 4, 1, 5, 0, 0]
    ++ [12, 0, 2, 0, 5, 2, 0, 1, 7, 0, 0, 0]
    ++ [12, 0, 2, 0, 7, 3, 3, 1, 13, 0, 0, 0]
    ++ [12, 0, 1, 0, 3, 3, 114, 115, 116, 0, 0, 0]

/-- A manifest with a Link-typed Property descriptor id 5 (ids `[6]`) and a U8
Property descriptor id 6 (value 42). -/
def manifest_link_property : List Nat :=
  header0 36 0 1
    ++ [12, 0, 2, 0, 5, 1, 0, 1, 6, 0, 0, 0]
    ++ [12, 0, 2, 0, 6, 3, 0, 1, 42, 0, 0, 0]

/-- The frame holds the length field that `identify_descriptor` reads for its
type: a String frame has at least 6 bytes, a Property frame at least 8. -/
def holds_length_field (D : Decls) (f : List Nat) : Prop :=
  (frame_type f 0 = D.MIKROBUS_TYPE_STRING → 6 ≤ f.length)
    ∧ (frame_type f 0 = D.MIKROBUS_TYPE_PROPERTY → 8 ≤ f.length)

/-- A String frame that is its descriptor header only: declared size 4. -/
def frame_bare_string : List Nat := [4, 0, 1, 0]

/-- A Property frame that is its descriptor header only: declared size 4. -/
def frame_bare_property : List Nat := [4, 0, 2, 0]

/-- A 16-byte manifest whose body is `frame_bare_string`. -/
def manifest_bare_string : List Nat := header0 16 0 0 ++ frame_bare_string

/-- A 16-byte manifest whose body is `frame_bare_property`. -/
def manifest_bare_property : List Nat := header0 16 0 0 ++ frame_bare_property

/-- A 36-byte manifest: the Device frame `frame_device1`, then
`frame_bare_property`. -/
def manifest_device_bare_property : List Nat :=
  header0 36 0 1 ++ frame_device1 ++ frame_bare_property

/-- A 40-byte manifest: the Device frame `frame_device1` (no driver name, no
property, no GPIO), then the String descriptor id 7 of `frame_string7`, which
neither the header (click string id 0) nor the device references. -/
def manifest_device_string : List Nat := header0 40 0 1 ++ frame_device1 ++ frame_string7

/-- A 44-byte manifest: the Device frame `frame_device1`, then a Property
descriptor (id 5, U8, length 1, value 42) that the device does not link. -/
def manifest_device_property : List Nat :=
  header0 44 0 1 ++ frame_device1 ++ [12, 0, 2, 0, 5, 3, 0, 1, 42, 0, 0, 0]

/-- A 36-byte manifest: a String descriptor with id 5 and length 3 whose bytes
are `00 01 2a`, then a Property descriptor with id 5, type Link, length 1 and
value 6. -/
def manifest_string_then_link : List Nat :=
  header0 36 0 1 ++ [12, 0, 1, 0, 5, 3, 0, 1, 42, 0, 0, 0]
    ++ [12, 0, 2, 0, 5, 1, 0, 1, 6, 0, 0, 0]

/-! ## Basic facts -/

@[simp] theorem Run.ok_bind {α β : Type} (a : α) (f : α → Run β) : (Run.ok a >>= f) = f a := rfl

@[simp] theorem Run.fault_bind {α β : Type} (f : α → Run β) :
    ((Run.fault : Run α) >>= f) = Run.fault := rfl

@[simp] theorem Run.fuel_bind {α β : Type} (f : α → Run β) :
    ((Run.fuel : Run α) >>= f) = Run.fuel := rfl

@[simp] theorem Run.pure_eq {α : Type} (a : α) : (pure a : Run α) = Run.ok a := rfl

theorem Run.bind_eq_ok {α β : Type} {x : Run α} {f : α → Run β} {b : β}
    (h : (x >>= f) = Run.ok b) : ∃ a, x = Run.ok a ∧ f a = Run.ok b := by
  cases x with
  | ok a => exact ⟨a, rfl, h⟩
  | fault => cases h
  | fuel => cases h

theorem load8_of_lt (data : List Nat) (p : Int) (h0 : 0 ≤ p) (h : p.toNat < data.length) :
    load8 data p = .ok (byte data p.toNat) := by
  simp [load8, byte, h0, List.getElem?_eq_getElem h, List.getD_eq_getElem?_getD]

theorem load8_nat (data : List Nat) (i : Nat) (h : i < data.length) :
    load8 data (i : Int) = .ok (byte data i) := by
  simpa using load8_of_lt data (i : Int) (by omega) (by simpa using h)

theorem load8_eq_ok {data : List Nat} {p : Int} {b : Nat} (h : load8 data p = .ok b) :
    0 ≤ p ∧ p.toNat < data.length ∧ b = byte data p.toNat := by
  unfold load8 at h
  split at h
  · rename_i h0
    split at h
    · rename_i x hx
      have hlt : p.toNat < data.length := by
        by_contra hc
        rw [List.getElem?_eq_none (by omega)] at hx
        cases hx
      refine ⟨h0, hlt, ?_⟩
      cases h
      simp [byte, List.getD_eq_getElem?_getD, hx]
    · cases h
  · cases h

theorem load16_of_lt (data : List Nat) (p : Int) (h0 : 0 ≤ p) (h : p.toNat + 1 < data.length) :
    load16 data p = .ok (byte data p.toNat + 256 * byte data (p.toNat + 1)) := by
  have h1 : (p + 1).toNat = p.toNat + 1 := by omega
  simp [load16, load8_of_lt data p h0 (by omega), load8_of_lt data (p + 1) (by omega) (by omega), h1]

/-! ## Frame lemmas -/

theorem Mach.shrinks_refl (m : Mach) : m.shrinks m := ⟨rfl, fun _ h => h⟩

theorem Mach.shrinks_trans {a b c : Mach} (h1 : a.shrinks b) (h2 : b.shrinks c) : a.shrinks c :=
  ⟨h2.1.trans h1.1, fun _ h => h1.2 (h2.2 h)⟩

theorem Mach.shrinks_tock (m : Mach) : m.shrinks m.tock := ⟨rfl, fun _ h => h⟩

theorem release_shrinks {m m' : Mach} {a : Nat}
    (h : release_manifest_descriptor m a = .ok m') : m.shrinks m' := by
  unfold release_manifest_descriptor at h
  split at h
  · cases h
    exact ⟨rfl, fun _ hx => List.eraseP_subset _ hx⟩
  · cases h

theorem string_get_shrinks {u : Nat → Bool} {data : List Nat} {m m' : Mach} {id : Nat}
    {r : CharPtr} (h : mikrobus_string_get u data m id = .ok (r, m')) : m.shrinks m' := by
  unfold mikrobus_string_get at h
  split at h
  · cases h
    exact m.shrinks_refl
  · dsimp only at h
    split at h
    · cases h
      exact m.shrinks_tock
    · obtain ⟨⟨r0, l⟩, _, h⟩ := Run.bind_eq_ok h
      dsimp only at h
      split at h
      · cases h
        exact m.shrinks_tock
      · obtain ⟨_, _, h⟩ := Run.bind_eq_ok h
        obtain ⟨_, _, h⟩ := Run.bind_eq_ok h
        obtain ⟨m1, hr, h⟩ := Run.bind_eq_ok h
        cases h
        exact Mach.shrinks_trans m.shrinks_tock (release_shrinks hr)

theorem link_get_shrinks {u : Nat → Bool} {data : List Nat} {m m' : Mach} {id ty : Nat}
    {r : BytePtr} (h : mikrobus_property_link_get u data m id ty = .ok (r, m')) :
    m.shrinks m' := by
  unfold mikrobus_property_link_get at h
  split at h
  · cases h
    exact m.shrinks_refl
  · dsimp only at h
    split at h
    · cases h
      exact m.shrinks_tock
    · obtain ⟨⟨r0, l⟩, _, h⟩ := Run.bind_eq_ok h
      dsimp only at h
      split at h
      · cases h
        exact m.shrinks_tock
      · obtain ⟨_, _, h⟩ := Run.bind_eq_ok h
        obtain ⟨_, _, h⟩ := Run.bind_eq_ok h
        obtain ⟨m1, hr, h⟩ := Run.bind_eq_ok h
        cases h
        exact Mach.shrinks_trans m.shrinks_tock (release_shrinks hr)



theorem property_entry_loop_shrinks (D : Decls) (u : Nat → Bool) (data : List Nat)
    (pl : BytePtr) :
    ∀ (k i : Nat) (loc : EntryLocals) (acc : List property_entry) (m : Mach) (r : PropsPtr)
      (m' : Mach), property_entry_loop D u data pl k i loc acc m = .ok (r, m') → m.shrinks m'
  | 0, i, loc, acc, m, r, m' => by
    intro h
    unfold property_entry_loop at h
    cases h
    exact m.shrinks_refl
  | k + 1, i, loc, acc, m, r, m' => by
    intro h
    unfold property_entry_loop at h
    dsimp only at h
    obtain ⟨loc', _, h⟩ := Run.bind_eq_ok h
    split at h
    · cases h
      exact m.shrinks_tock
    · split at h
      · cases h
      · obtain ⟨sid, _, h⟩ := Run.bind_eq_ok h
        obtain ⟨⟨prop_name, m1⟩, hs, h⟩ := Run.bind_eq_ok h
        dsimp only at h
        obtain ⟨ty, _, h⟩ := Run.bind_eq_ok h
        obtain ⟨e, _, h⟩ := Run.bind_eq_ok h
        have h1 : m.shrinks m1 := Mach.shrinks_trans m.shrinks_tock (string_get_shrinks hs)
        split at h
        · cases h
          exact h1
        · obtain ⟨m2, hr, h⟩ := Run.bind_eq_ok h
          have h2 : m1.shrinks m2 := by
            split at hr
            · exact release_shrinks hr
            · cases hr
          exact Mach.shrinks_trans h1
            (Mach.shrinks_trans h2 (property_entry_loop_shrinks D u data pl k _ _ _ _ _ _ h))

theorem gpio_guard_shrinks (D : Decls) (u : Nat → Bool) (m : Mach) (d : Option Nat) :
    m.shrinks (gpio_guard D u m d).2 := by
  unfold gpio_guard
  split
  · exact m.shrinks_tock
  · split
    · exact m.shrinks_refl
    · exact m.shrinks_tock

theorem gpio_loop_shrinks (D : Decls) (u : Nat → Bool) (data : List Nat) (gl : BytePtr) :
    ∀ (k i : Nat) (descriptor : Option Nat) (acc : List gpiod_lookup) (m : Mach)
      (r : List gpiod_lookup) (m' : Mach),
      gpio_loop D u data gl k i descriptor acc m = .ok (r, m') → m.shrinks m'
  | 0, i, descriptor, acc, m, r, m' => by
    intro h
    unfold gpio_loop at h
    cases h
    exact m.shrinks_refl
  | k + 1, i, descriptor, acc, m, r, m' => by
    intro h
    unfold gpio_loop at h
    have hg := gpio_guard_shrinks D u m descriptor
    generalize gpio_guard D u m descriptor = gm at h hg
    obtain ⟨g, m1⟩ := gm
    dsimp only at h hg
    split at h
    · obtain ⟨⟨r0, l⟩, _, h⟩ := Run.bind_eq_ok h
      dsimp only at h
      split at h
      · obtain ⟨_, _, h⟩ := Run.bind_eq_ok h
        obtain ⟨_, _, h⟩ := Run.bind_eq_ok h
        obtain ⟨⟨con_id, m2⟩, hs, h⟩ := Run.bind_eq_ok h
        dsimp only at h
        exact Mach.shrinks_trans hg (Mach.shrinks_trans (string_get_shrinks hs)
          (gpio_loop_shrinks D u data gl k _ _ _ _ _ _ h))
      · exact Mach.shrinks_trans hg (gpio_loop_shrinks D u data gl k _ _ _ _ _ _ h)
    · exact Mach.shrinks_trans hg (gpio_loop_shrinks D u data gl k _ _ _ _ _ _ h)

/-! ## Loads -/

theorem byte_lt (data : List Nat) (i : Nat) : byte data i < 256 := by
  unfold byte
  omega

theorem load8_eq_ok_add {data : List Nat} {p : Int} {k b : Nat} (h0 : 0 ≤ p)
    (h : load8 data (p + (k : Int)) = .ok b) : b = byte data (p.toNat + k) := by
  have := (load8_eq_ok h).2.2
  have e : (p + (k : Int)).toNat = p.toNat + k := by omega
  rw [e] at this
  exact this

theorem load16_eq_ok {data : List Nat} {p : Int} {v : Nat} (h : load16 data p = .ok v) :
    0 ≤ p ∧ v = byte data p.toNat + 256 * byte data (p.toNat + 1) := by
  unfold load16 at h
  obtain ⟨b0, h0, h⟩ := Run.bind_eq_ok h
  obtain ⟨b1, h1, h⟩ := Run.bind_eq_ok h
  cases h
  have hp := (load8_eq_ok h0).1
  refine ⟨hp, ?_⟩
  have e0 : b0 = byte data p.toNat := (load8_eq_ok h0).2.2
  have e1 : b1 = byte data (p.toNat + 1) := load8_eq_ok_add hp (k := 1) (by simpa using h1)
  rw [e0, e1]

theorem load32_eq_ok {data : List Nat} {p : Int} {v : Nat} (h : load32 data p = .ok v) :
    0 ≤ p ∧ v = byte data p.toNat + 256 * byte data (p.toNat + 1)
      + 65536 * (byte data (p.toNat + 2) + 256 * byte data (p.toNat + 3)) := by
  unfold load32 at h
  obtain ⟨lo, h0, h⟩ := Run.bind_eq_ok h
  obtain ⟨hi, h1, h⟩ := Run.bind_eq_ok h
  cases h
  have hp := (load16_eq_ok h0).1
  refine ⟨hp, ?_⟩
  have e : (p + 2).toNat = p.toNat + 2 := by omega
  rw [(load16_eq_ok h0).2, (load16_eq_ok h1).2, e]


/-! ## C1, C2: header checks -/

/-- C2: on a buffer that holds `size` bytes, `mikrobus_manifest_header_validate`
returns the little-endian 16-bit size field when `size` is at least the header
size, `version_major <= MIKROBUS_VERSION_MAJOR`, `click_stringid >= 1` and
`num_devices >= 1`, and `0` in every other case; a buffer shorter than the
header gives `0`. -/
theorem header_validate_spec (D : Decls) (data : List Nat) (size : Nat)
    (hbuf : size ≤ data.length) :
    mikrobus_manifest_header_validate D data size =
        .ok (if D.sizeof_manifest_header ≤ size ∧ byte data 2 ≤ D.MIKROBUS_VERSION_MAJOR
                ∧ 1 ≤ byte data 4 ∧ 1 ≤ byte data 5
              then byte data 0 + 256 * byte data 1 else 0)
      ∧ (size < D.sizeof_manifest_header →
          mikrobus_manifest_header_validate D data size = .ok 0) := by
  constructor
  · by_cases hs : size < D.sizeof_manifest_header
    · have : ¬ D.sizeof_manifest_header ≤ size := by omega
      simp [mikrobus_manifest_header_validate, hs, this]
    · have h9 : 9 ≤ data.length := by
        unfold Decls.sizeof_manifest_header at hs
        omega
      have e16 := load16_of_lt data 0 (by omega) (by simpa using (by omega : 1 < data.length))
      have e2 := load8_of_lt data 2 (by omega) (by simpa using (by omega : 2 < data.length))
      have e4 := load8_of_lt data 4 (by omega) (by simpa using (by omega : 4 < data.length))
      have e5 := load8_of_lt data 5 (by omega) (by simpa using (by omega : 5 < data.length))
      simp only [Int.toNat_zero, Int.toNat_ofNat, Nat.zero_add] at e16 e2 e4 e5
      have hge : D.sizeof_manifest_header ≤ size := by omega
      simp only [mikrobus_manifest_header_validate, hs, if_false, e16, e2, e4, e5,
        Run.ok_bind, hge, true_and]
      by_cases hv : byte data 2 > D.MIKROBUS_VERSION_MAJOR
      · have : ¬ byte data 2 ≤ D.MIKROBUS_VERSION_MAJOR := by omega
        simp [hv, this]
      · have hv2 : byte data 2 ≤ D.MIKROBUS_VERSION_MAJOR := by omega
        by_cases hc : byte data 4 < 1
        · have : ¬ 1 ≤ byte data 4 := by omega
          simp [hv, hv2, hc, this]
        · have hc2 : 1 ≤ byte data 4 := by omega
          by_cases hn : byte data 5 < 1
          · have : ¬ 1 ≤ byte data 5 := by omega
            simp [hv, hv2, hc, hc2, hn, this]
          · have hn2 : 1 ≤ byte data 5 := by omega
            simp [hv, hv2, hc, hc2, hn, hn2]
  · intro hs
    simp [mikrobus_manifest_header_validate, hs]

/-- Witness for `header_validate_spec`: a 12-byte header declaring size 12. -/
theorem header_validate_spec_witness :
    mikrobus_manifest_header_validate D0 (header0 12 2 1) 12 = .ok 12 := by
  have h := (header_validate_spec D0 (header0 12 2 1) 12 (by decide)).1
  rw [h]
  decide

/-- C1: on a board info with an empty descriptor list and a buffer that holds
`size` bytes, `mikrobus_manifest_parse` returns `false` and leaves the whole
state (name, counts, pin states, descriptor list, device list) unchanged
whenever `size` is below the header size, or the little-endian size field
differs from `size`, or `version_major` exceeds `MIKROBUS_VERSION_MAJOR`. -/
theorem parse_rejects_bad_header (D : Decls) (u : Nat → Bool) (fuel : Nat) (data : List Nat)
    (m : Mach) (size : Nat)
    (hempty : m.info.manifest_descs = [])
    (hbuf : size ≤ data.length)
    (hbad : size < D.sizeof_manifest_header
      ∨ byte data 0 + 256 * byte data 1 ≠ size
      ∨ byte data 2 > D.MIKROBUS_VERSION_MAJOR) :
    mikrobus_manifest_parse D u fuel data m size = .ok (false, m) := by
  by_cases hs : size < D.sizeof_manifest_header
  · simp [mikrobus_manifest_parse, hempty, hs]
  · have h9 : 9 ≤ data.length := by
      unfold Decls.sizeof_manifest_header at hs
      omega
    have e16 := load16_of_lt data 0 (by omega) (by simpa using (by omega : 1 < data.length))
    have e2 := load8_of_lt data 2 (by omega) (by simpa using (by omega : 2 < data.length))
    simp only [Int.toNat_zero, Int.toNat_ofNat, Nat.zero_add] at e16 e2
    simp only [mikrobus_manifest_parse, hempty, List.isEmpty_nil, Bool.not_true, hs, if_false,
      e16, Run.ok_bind, Bool.false_eq_true]
    by_cases hsz : byte data 0 + 256 * byte data 1 = size
    · have hv : byte data 2 > D.MIKROBUS_VERSION_MAJOR := by
        rcases hbad with h | h | h
        · exact absurd h hs
        · exact absurd hsz h
        · exact h
      simp [hsz, e2, hv]
    · simp [hsz]

/-- Witness for `parse_rejects_bad_header`: a 12-byte header that declares 16
bytes is rejected, the state is unchanged. -/
theorem parse_rejects_bad_header_witness :
    mikrobus_manifest_parse D0 pass 8 (header0 16 2 1) m0 12 = .ok (false, m0) :=
  parse_rejects_bad_header D0 pass 8 (header0 16 2 1) m0 12 rfl (by decide)
    (Or.inr (Or.inl (by decide)))

/-! ## C3: a rejected frame does not abort the parse -/

/-- Once the three header checks have passed, `mikrobus_manifest_parse` cannot
return `false`: the only `return` behind the checks is `return true`. -/
theorem parse_never_false_behind_header (D : Decls) (u : Nat → Bool) (fuel : Nat)
    (data : List Nat) (m : Mach) (size : Nat)
    (hempty : m.info.manifest_descs = [])
    (hbuf : size ≤ data.length)
    (hsize : D.sizeof_manifest_header ≤ size)
    (hdecl : byte data 0 + 256 * byte data 1 = size)
    (hver : byte data 2 ≤ D.MIKROBUS_VERSION_MAJOR) (m' : Mach) :
    mikrobus_manifest_parse D u fuel data m size ≠ .ok (false, m') := by
  intro h
  have h9 : 9 ≤ data.length := by
    unfold Decls.sizeof_manifest_header at hsize
    omega
  have e16 : load16 data 0 = .ok (byte data 0 + 256 * byte data 1) := by
    simpa using load16_of_lt data 0 (by omega) (by simpa using (by omega : 1 < data.length))
  have e2 : load8 data 2 = .ok (byte data 2) := by
    simpa using load8_nat data 2 (by omega)
  have hs : ¬ size < D.sizeof_manifest_header := by omega
  have hv : ¬ byte data 2 > D.MIKROBUS_VERSION_MAJOR := by omega
  simp only [mikrobus_manifest_parse, hempty, List.isEmpty_nil, Bool.not_true, hs, if_false,
    e16, e2, Run.ok_bind, Bool.false_eq_true, hdecl, ne_eq, not_true_eq_false, hv] at h
  obtain ⟨_, _, h⟩ := Run.bind_eq_ok h
  obtain ⟨_, _, h⟩ := Run.bind_eq_ok h
  obtain ⟨_, _, h⟩ := Run.bind_eq_ok h
  obtain ⟨_, _, h⟩ := Run.bind_eq_ok h
  obtain ⟨_, _, h⟩ := Run.bind_eq_ok h
  obtain ⟨_, _, h⟩ := Run.bind_eq_ok h
  obtain ⟨_, _, h⟩ := Run.bind_eq_ok h
  obtain ⟨_, _, h⟩ := Run.bind_eq_ok h
  cases h

/-- C3 (code evaluated at the failing input): in `manifest_bad_type` the
frame at offset 40 has type byte `0xFF` and `identify_descriptor` rejects it
with `-EINVAL`; the loop of `mikrobus_manifest_parse` goes on, with the cursor
moved back by 22 bytes and the remaining size raised by 22, indexes the bytes
at offset 18 as one more descriptor, and the parse returns `true`, whether
the indeterminate tests pass or fail. -/
theorem parse_bad_type_returns_true :
    (∀ m, identify_descriptor D0 manifest_bad_type m 40 4 = .ok (-22, m))
      ∧ (descriptor_loop D0 manifest_bad_type 16 m0 12 32).bind
            (fun m => .ok (m.info.manifest_descs.map (fun d => (d.data, d.size, d.type))))
          = .ok [(16, 28, 1), (22, 26, 1)]
      ∧ (∃ m', mikrobus_manifest_parse D0 skip 16 manifest_bad_type m0 44 = .ok (true, m'))
      ∧ (∃ m', mikrobus_manifest_parse D0 pass 16 manifest_bad_type m0 44 = .ok (true, m')) :=
  ⟨fun _ => rfl, by decide, ⟨_, rfl⟩, ⟨_, rfl⟩⟩

/-- Witness for `parse_never_false_behind_header`, at the manifest whose last
frame has type byte `0xFF`. -/
theorem parse_never_false_behind_header_witness :
    ∀ m', mikrobus_manifest_parse D0 pass 16 manifest_bad_type m0 44 ≠ .ok (false, m') :=
  fun m' => parse_never_false_behind_header D0 pass 16 manifest_bad_type m0 44 rfl
    (by decide) (by decide) (by decide) (by decide) m'

/-! ## C4: devices are built from every descriptor left on the list -/

/-- C4 (code evaluated at the failing input): `manifest_string_device` holds
one String and one Device descriptor.  When the indeterminate test of
`mikrobus_manifest_parse_devices` passes, the parse returns `true` with two
devices, the first built from the bytes of the String descriptor (id 7); when
it fails, the parse returns `true` with no device. -/
theorem parse_devices_from_string :
    (∃ m', mikrobus_manifest_parse D0 pass 16 manifest_string_device m0 40 = .ok (true, m')
        ∧ m'.info.devices.map (fun d => d.id) = [7, 1])
      ∧ (∃ m', mikrobus_manifest_parse D0 skip 16 manifest_string_device m0 40 = .ok (true, m')
        ∧ m'.info.devices = [])
      ∧ (indexed manifest_string_device 40).bind
            (fun m => (mikrobus_manifest_parse_devices D0 pass manifest_string_device m).bind
              (fun r => .ok r.1)) = .ok 2 :=
  ⟨⟨_, rfl, rfl⟩, ⟨_, rfl, rfl⟩, by decide⟩

/-! ## C6: Scenario A -/

/-- C6 (code evaluated at the failing input): Scenario A.  When every
indeterminate test passes the run faults, in each of the six orders of the
three descriptors.  In the order strings first: when only the test of the name
lookup passes, the parse returns `true` with the name `"ClickBoardX"` and no
device; when every test fails, it returns `true` with the name
`ERR_PTR(-ENOENT)` and no device (the device count and the three pin states
are the header bytes 1, 1, 2, 3). -/
theorem parse_scenario_A :
    (∀ x ∈ scenario_A_orders, mikrobus_manifest_parse D0 pass 16 x m0 68 = .fault)
      ∧ (∃ m', mikrobus_manifest_parse D0 (fun n => n == 0) 16 scenario_A m0 68 = .ok (true, m')
        ∧ m'.info.name = .str str_ClickBoardX ∧ m'.info.devices = [])
      ∧ (∃ m', mikrobus_manifest_parse D0 skip 16 scenario_A m0 68 = .ok (true, m')
        ∧ m'.info.name = .err ENOENT ∧ m'.info.devices = []
        ∧ (m'.info.num_devices, m'.info.rst_gpio_state, m'.info.pwm_gpio_state,
            m'.info.int_gpio_state) = (1, 1, 2, 3)) :=
  ⟨by decide, ⟨_, rfl, rfl, rfl⟩, ⟨_, rfl, rfl, rfl, rfl⟩⟩

/-! ## C7: link arrays are read without a count check -/

/-- Whenever `mikrobus_manifest_attach_device` returns, it returns `0`: none
of the lookups it makes can make it fail. -/
theorem attach_device_returns_zero (D : Decls) (u : Nat → Bool) (data : List Nat) (m m' : Mach)
    (dev_desc : Int) (r : Int)
    (h : mikrobus_manifest_attach_device D u data m dev_desc = .ok (r, m')) : r = 0 := by
  unfold mikrobus_manifest_attach_device at h
  obtain ⟨_, _, h⟩ := Run.bind_eq_ok h
  obtain ⟨_, _, h⟩ := Run.bind_eq_ok h
  obtain ⟨⟨_, _⟩, _, h⟩ := Run.bind_eq_ok h
  dsimp only at h
  obtain ⟨_, _, h⟩ := Run.bind_eq_ok h
  obtain ⟨_, _, h⟩ := Run.bind_eq_ok h
  obtain ⟨_, _, h⟩ := Run.bind_eq_ok h
  obtain ⟨_, _, h⟩ := Run.bind_eq_ok h
  obtain ⟨_, _, h⟩ := Run.bind_eq_ok h
  obtain ⟨_, _, h⟩ := Run.bind_eq_ok h
  obtain ⟨_, _, h⟩ := Run.bind_eq_ok h
  obtain ⟨_, _, h⟩ := Run.bind_eq_ok h
  obtain ⟨_, _, h⟩ := Run.bind_eq_ok h
  obtain ⟨⟨_, _⟩, _, h⟩ := Run.bind_eq_ok h
  dsimp only at h
  obtain ⟨⟨_, _⟩, _, h⟩ := Run.bind_eq_ok h
  dsimp only at h
  cases h
  rfl

/-- C7 (code evaluated at the failing input): the Device descriptor of
`manifest_short_link` declares two properties, its Link property holds one id.
`mikrobus_property_link_get` returns the one-element array `[6]`; with every
indeterminate test passing, `mikrobus_property_entry_get` resolves one
property from it, and asked for two it reads `prop_link[1]`, outside that
array: the run of `mikrobus_manifest_attach_device` faults.  With every test
failing the function returns `0` and appends a device whose `properties` is
`ERR_PTR(-ENOENT)`.  In `manifest_long_link` the device declares one property
and the Link property holds two ids: the function returns `0` with the one
property of id 6. -/
theorem attach_device_short_link :
    (indexed manifest_short_link 56).bind
          (fun m => (mikrobus_property_link_get pass manifest_short_link m 5
            D0.MIKROBUS_PROPERTY_TYPE_LINK).bind (fun r => .ok r.1)) = .ok (.arr [6])
      ∧ (indexed manifest_short_link 56).bind
          (fun m => ((mikrobus_property_link_get pass manifest_short_link m 5
            D0.MIKROBUS_PROPERTY_TYPE_LINK).bind
              (fun r => mikrobus_property_entry_get D0 pass manifest_short_link r.2 r.1 1)).bind
                (fun r => .ok r.1)) = .ok (.arr [u8_entry 42])
      ∧ (indexed manifest_short_link 56).bind
          (fun m => (mikrobus_property_link_get pass manifest_short_link m 5
            D0.MIKROBUS_PROPERTY_TYPE_LINK).bind
              (fun r => mikrobus_property_entry_get D0 pass manifest_short_link r.2 r.1 2))
          = .fault
      ∧ BytePtr.index (.arr [6]) 1 = .fault
      ∧ (indexed manifest_short_link 56).bind
          (fun m => mikrobus_manifest_attach_device D0 pass manifest_short_link m 16) = .fault
      ∧ (indexed manifest_short_link 56).bind
          (fun m => (mikrobus_manifest_attach_device D0 skip manifest_short_link m 16).bind
            (fun r => .ok (r.1, r.2.info.devices.map (fun d => d.properties))))
          = .ok (0, [.err ENOENT])
      ∧ (indexed manifest_long_link 68).bind
          (fun m => (mikrobus_manifest_attach_device D0 pass manifest_long_link m 16).bind
            (fun r => .ok (r.1, r.2.info.devices.map (fun d => (d.num_properties, d.properties)))))
          = .ok (0, [(1, .arr [u8_entry 42])]) := by
  decide

/-! ## C8: a second lookup of the same id -/

/-- C8 (code evaluated at the failing input): the index of
`manifest_string_property` holds exactly one String descriptor with id 1 and a
Property descriptor with id 1.  With every indeterminate test passing, the
first `mikrobus_string_get(info, 1)` returns `"a"` and the second one, made
right after it, returns a buffer copied from the Property descriptor instead
of `ERR_PTR(-ENOENT)`.  With the test failing, already the first call returns
`ERR_PTR(-ENOENT)`. -/
theorem string_get_twice :
    (indexed manifest_string_property 32).bind
          (fun m => .ok (m.info.manifest_descs.map (fun d => (d.data, d.type))))
        = .ok [(16, 1), (24, 2)]
      ∧ (indexed manifest_string_property 32).bind
          (fun m => (mikrobus_string_get pass manifest_string_property m 1).bind
            (fun r => .ok r.1)) = .ok (.str [97, 0])
      ∧ (indexed manifest_string_property 32).bind
          (fun m => (mikrobus_string_get pass manifest_string_property m 1).bind
            (fun r => (mikrobus_string_get pass manifest_string_property r.2 1).bind
              (fun r => .ok r.1))) = .ok (.str [0, 1, 42, 0])
      ∧ (indexed manifest_string_property 32).bind
          (fun m => (mikrobus_string_get skip manifest_string_property m 1).bind
            (fun r => .ok r.1)) = .ok (.err ENOENT) := by
  decide

/-! ## C10: value bytes are read without a bound -/

/-- C10 (code evaluated at the failing input): the Property frame of
`manifest_short_property` declares 8 bytes, so it holds no value byte, and
says type U32, length 1.  `identify_descriptor` accepts it (although the
`expected_size` it computes is 12), and `mikrobus_property_entry_get` decodes
it to the scalar `196628`, the little-endian value of the four bytes
`20, 0, 3, 0` that follow the frame (the header of the next descriptor). -/
theorem property_read_past_frame :
    identify_descriptor D0 manifest_short_property m0 12 28
        = .ok (8, { (m0.set_descs [{ addr := 0, size := 8, data := 16, type := 2 }])
                      with nalloc := 1 })
      ∧ expected_size D0 manifest_short_property 12 2 = .ok 12
      ∧ (indexed manifest_short_property 40).bind
          (fun m => (mikrobus_property_entry_get D0 pass manifest_short_property m (.arr [6]) 1).bind
            (fun r => .ok r.1))
        = .ok (.arr [{ name := .null, length := 4, is_array := false, type := .U32,
                       value := 196628, pointer := 0 }]) := by
  decide

/-! ## C5: fixed fields of a device record -/

theorem load8_nat_add (data : List Nat) (p k : Nat) (h : p + k < data.length) :
    load8 data ((p : Int) + (k : Int)) = .ok (byte data (p + k)) := by
  have := load8_nat data (p + k) h
  rwa [Nat.cast_add] at this

/-- A Device descriptor that lies inside the buffer and names no driver
string, no property and no GPIO resource is always attached: the function
returns `0` and appends one record. -/
theorem attach_device_plain (D : Decls) (u : Nat → Bool) (data : List Nat) (m : Mach) (p : Nat)
    (hlen : p + 16 ≤ data.length)
    (hdrv : byte data (p + 1) = 0) (hgpio : byte data (p + 12) = 0)
    (hprop : byte data (p + 14) = 0) :
    ∃ dev, mikrobus_manifest_attach_device D u data m (p : Int)
      = .ok (0, { m with info := { m.info with devices := m.info.devices ++ [dev] } }) := by
  have e0 : load8 data (p : Int) = .ok (byte data p) := load8_nat data p (by omega)
  have e1 := load8_nat_add data p 1 (by omega)
  have e2 := load8_nat_add data p 2 (by omega)
  have e3 := load8_nat_add data p 3 (by omega)
  have e4 := load8_nat_add data p 4 (by omega)
  have e5 := load8_nat_add data p 5 (by omega)
  have e6 := load8_nat_add data p 6 (by omega)
  have e7 := load8_nat_add data p 7 (by omega)
  have e8 := load8_nat_add data p 8 (by omega)
  have e9 := load8_nat_add data p 9 (by omega)
  have e10 := load8_nat_add data p 10 (by omega)
  have e11 := load8_nat_add data p 11 (by omega)
  have e12 := load8_nat_add data p 12 (by omega)
  have e14 := load8_nat_add data p 14 (by omega)
  have a7 : (p : Int) + 6 + 1 = (p : Int) + 7 := by omega
  have a8 : (p : Int) + 6 + 2 = (p : Int) + 8 := by omega
  have a9 : (p : Int) + 8 + 1 = (p : Int) + 9 := by omega
  simp only [Nat.cast_ofNat, Nat.cast_one] at e1 e2 e3 e4 e5 e6 e7 e8 e9 e10 e11 e12 e14
  simp only [mikrobus_manifest_attach_device, e0, e1, e2, e3, e4, e5, e6, e7, e8, e9, e10, e11,
    e12, e14, a7, a8, a9, load32, load16, Run.ok_bind, Run.pure_eq, hdrv, hgpio, hprop,
    mikrobus_string_get, if_true, gt_iff_lt, Nat.lt_irrefl, if_false]
  exact ⟨_, rfl⟩

/-- C5: whenever `mikrobus_manifest_attach_device` returns, it has appended
exactly one device record to the device list; the record's `id`, `protocol`,
`reg`, `irq`, `irq_type`, `mode`, `cs_gpio`, `num_gpio_resources` and
`num_properties` are the corresponding bytes of the descriptor, `max_speed_hz`
is the little-endian value of its four speed bytes, and writing these fields
back in the wire layout gives the descriptor's fixed-field bytes. -/
theorem attach_device_fixed_fields (D : Decls) (u : Nat → Bool) (data : List Nat) (m m' : Mach)
    (dev_desc : Int) (r : Int)
    (h : mikrobus_manifest_attach_device D u data m dev_desc = .ok (r, m')) :
    ∃ dev : click_device_info, ∃ p : Nat, dev_desc = (p : Int)
      ∧ m'.info.devices = m.info.devices ++ [dev]
      ∧ dev.id = byte data p
      ∧ dev.protocol = byte data (p + 2)
      ∧ dev.reg = byte data (p + 3)
      ∧ dev.irq = byte data (p + 4)
      ∧ dev.irq_type = byte data (p + 5)
      ∧ dev.max_speed_hz = byte data (p + 6) + 256 * byte data (p + 7)
          + 65536 * byte data (p + 8) + 16777216 * byte data (p + 9)
      ∧ dev.mode = byte data (p + 10)
      ∧ dev.cs_gpio = byte data (p + 11)
      ∧ dev.num_gpio_resources = byte data (p + 12)
      ∧ dev.num_properties = byte data (p + 14)
      ∧ device_fixed_encode dev = device_fixed_bytes data p := by
  unfold mikrobus_manifest_attach_device at h
  obtain ⟨id, hid, h⟩ := Run.bind_eq_ok h
  obtain ⟨drv, hdrv, h⟩ := Run.bind_eq_ok h
  obtain ⟨⟨drv_name, m1⟩, hs, h⟩ := Run.bind_eq_ok h
  dsimp only at h
  obtain ⟨protocol, hprotocol, h⟩ := Run.bind_eq_ok h
  obtain ⟨reg, hreg, h⟩ := Run.bind_eq_ok h
  obtain ⟨irq, hirq, h⟩ := Run.bind_eq_ok h
  obtain ⟨irq_type, hirq_type, h⟩ := Run.bind_eq_ok h
  obtain ⟨speed, hspeed, h⟩ := Run.bind_eq_ok h
  obtain ⟨mode, hmode, h⟩ := Run.bind_eq_ok h
  obtain ⟨cs, hcs, h⟩ := Run.bind_eq_ok h
  obtain ⟨ngpio, hngpio, h⟩ := Run.bind_eq_ok h
  obtain ⟨nprops, hnprops, h⟩ := Run.bind_eq_ok h
  obtain ⟨⟨properties, m2⟩, hp, h⟩ := Run.bind_eq_ok h
  dsimp only at h
  obtain ⟨⟨lookup, m3⟩, hg, h⟩ := Run.bind_eq_ok h
  dsimp only at h
  cases h
  have h01 : m.shrinks m1 := string_get_shrinks hs
  have h12 : m1.shrinks m2 := by
    split at hp
    · obtain ⟨_, _, hp⟩ := Run.bind_eq_ok hp
      obtain ⟨⟨pl, ma⟩, hl, hp⟩ := Run.bind_eq_ok hp
      dsimp only at hp
      exact Mach.shrinks_trans (link_get_shrinks hl)
        (property_entry_loop_shrinks D u data _ _ _ _ _ _ _ _ hp)
    · cases hp
      exact m1.shrinks_refl
  have h23 : m2.shrinks m3 := by
    split at hg
    · obtain ⟨_, _, hg⟩ := Run.bind_eq_ok hg
      obtain ⟨⟨gl, ma⟩, hl, hg⟩ := Run.bind_eq_ok hg
      dsimp only at hg
      obtain ⟨⟨table, mb⟩, hloop, hg⟩ := Run.bind_eq_ok hg
      dsimp only at hg
      cases hg
      exact Mach.shrinks_trans (link_get_shrinks hl)
        (gpio_loop_shrinks D u data _ _ _ _ _ _ _ _ hloop)
    · cases hg
      exact m2.shrinks_refl
  have hdev : m3.info.devices = m.info.devices := (h23.1.trans h12.1).trans h01.1
  have hp0 := (load8_eq_ok hid).1
  have e6 : (dev_desc + 6).toNat = dev_desc.toNat + 6 := by omega
  have hsp : speed = byte data (dev_desc.toNat + 6) + 256 * byte data (dev_desc.toNat + 7)
      + 65536 * (byte data (dev_desc.toNat + 8) + 256 * byte data (dev_desc.toNat + 9)) := by
    have := (load32_eq_ok hspeed).2
    rw [e6] at this
    exact this
  have b6 := byte_lt data (dev_desc.toNat + 6)
  have b7 := byte_lt data (dev_desc.toNat + 7)
  have b8 := byte_lt data (dev_desc.toNat + 8)
  have b9 := byte_lt data (dev_desc.toNat + 9)
  have eid := (load8_eq_ok hid).2.2
  have eprotocol := load8_eq_ok_add hp0 (k := 2) (by simpa using hprotocol)
  have ereg := load8_eq_ok_add hp0 (k := 3) (by simpa using hreg)
  have eirq := load8_eq_ok_add hp0 (k := 4) (by simpa using hirq)
  have eirq_type := load8_eq_ok_add hp0 (k := 5) (by simpa using hirq_type)
  have emode := load8_eq_ok_add hp0 (k := 10) (by simpa using hmode)
  have ecs := load8_eq_ok_add hp0 (k := 11) (by simpa using hcs)
  have engpio := load8_eq_ok_add hp0 (k := 12) (by simpa using hngpio)
  have enprops := load8_eq_ok_add hp0 (k := 14) (by simpa using hnprops)
  refine ⟨_, dev_desc.toNat, by omega, by rw [← hdev], eid, eprotocol, ereg, eirq, eirq_type,
    by dsimp only; rw [hsp]; omega, emode, ecs, engpio, enprops, ?_⟩
  simp only [device_fixed_encode, device_fixed_bytes]
  rw [← eid, eprotocol, ereg, eirq, eirq_type, emode, ecs, engpio, enprops, hsp]
  have d1 : ∀ a b c d : Nat, a < 256 → b < 256 → c < 256 → d < 256 →
      (a + 256 * b + 65536 * (c + 256 * d)) % 256 = a
      ∧ (a + 256 * b + 65536 * (c + 256 * d)) / 256 % 256 = b
      ∧ (a + 256 * b + 65536 * (c + 256 * d)) / 65536 % 256 = c
      ∧ (a + 256 * b + 65536 * (c + 256 * d)) / 16777216 % 256 = d := by
    intro a b c d ha hb hc hd
    omega
  obtain ⟨q0, q1, q2, q3⟩ := d1 _ _ _ _ b6 b7 b8 b9
  rw [q0, q1, q2, q3]

/-- Witness for `attach_device_fixed_fields`: the device of
`manifest_one_device`, with `max_speed_hz = 1000000`. -/
theorem attach_device_fixed_fields_witness :
    ∃ dev : click_device_info,
      device_fixed_encode dev = [1, 5, 6, 0, 0, 64, 66, 15, 0, 2, 4, 0, 0]
        ∧ dev.max_speed_hz = 1000000 := by
  have hrun : ∃ r m', mikrobus_manifest_attach_device D0 pass manifest_one_device
      state_one_device 16 = .ok (r, m') := ⟨_, _, rfl⟩
  obtain ⟨r, m', h⟩ := hrun
  obtain ⟨dev, p, hp, _, _, _, _, _, _, hspeed, _, _, _, _, henc⟩ :=
    attach_device_fixed_fields D0 pass manifest_one_device state_one_device m' 16 r h
  have hp16 : p = 16 := by omega
  subst hp16
  exact ⟨dev, by rw [henc]; decide, by rw [hspeed]; decide⟩

/-! ## C9: decoding of integer properties -/

theorem kmemdup_eq_ok (data : List Nat) :
    ∀ (n : Nat) (p : Int) (bs : List Nat), kmemdup data p n = .ok bs →
      bs = (List.range n).map (fun j => byte data (p.toNat + j))
        ∧ (0 < n → 0 ≤ p ∧ p.toNat + n ≤ data.length)
  | 0, p, bs => by
    intro h
    unfold kmemdup at h
    cases h
    simp
  | n + 1, p, bs => by
    intro h
    unfold kmemdup at h
    obtain ⟨b, hb, h⟩ := Run.bind_eq_ok h
    obtain ⟨rest, hrest, h⟩ := Run.bind_eq_ok h
    cases h
    obtain ⟨hp, hlt, eb⟩ := load8_eq_ok hb
    obtain ⟨er, hbound⟩ := kmemdup_eq_ok data n (p + 1) rest hrest
    have e1 : (p + 1).toNat = p.toNat + 1 := by omega
    constructor
    · rw [List.range_succ_eq_map, List.map_cons, List.map_map, er, eb, e1]
      simp only [Nat.add_zero, List.cons.injEq, true_and]
      apply List.map_congr_left
      intro j _
      simp only [Function.comp_apply, Nat.succ_eq_add_one]
      congr 1
      omega
    · intro _
      refine ⟨hp, ?_⟩
      by_cases hn : 0 < n
      · have := (hbound hn).2
        omega
      · omega

theorem kmemdup_of_le (data : List Nat) :
    ∀ (n : Nat) (p : Int), 0 ≤ p → p.toNat + n ≤ data.length →
      kmemdup data p n = .ok ((List.range n).map (fun j => byte data (p.toNat + j)))
  | 0, p => by
    intro _ _
    simp [kmemdup]
  | n + 1, p => by
    intro hp hle
    unfold kmemdup
    have e1 : (p + 1).toNat = p.toNat + 1 := by omega
    rw [load8_of_lt data p hp (by omega), Run.ok_bind,
      kmemdup_of_le data n (p + 1) (by omega) (by omega), Run.ok_bind, e1,
      List.range_succ_eq_map, List.map_cons, List.map_map]
    simp only [Run.pure_eq, Nat.add_zero, Run.ok.injEq, List.cons.injEq, true_and]
    apply List.map_congr_left
    intro j _
    simp only [Function.comp_apply, Nat.succ_eq_add_one]
    congr 1
    omega

theorem read_elems_of_le (data : List Nat) (w : Nat) :
    ∀ (n : Nat) (p : Int), 0 ≤ p → p.toNat + n * w ≤ data.length →
      read_elems data w p n
        = .ok ((List.range n).map (fun i => le_at data (p.toNat + i * w) w))
  | 0, p => by
    intro _ _
    simp [read_elems]
  | n + 1, p => by
    intro hp hle
    have hmul : (n + 1) * w = n * w + w := Nat.succ_mul n w
    unfold read_elems
    have e1 : (p + (w : Int)).toNat = p.toNat + w := by omega
    rw [kmemdup_of_le data w p hp (by omega), Run.ok_bind,
      read_elems_of_le data w n (p + (w : Int)) (by omega) (by omega), Run.ok_bind, e1,
      List.range_succ_eq_map, List.map_cons, List.map_map]
    simp only [Run.pure_eq, Run.ok.injEq, List.cons.injEq]
    constructor
    · simp [le_at]
    · apply List.map_congr_left
      intro i _
      simp only [Function.comp_apply, Nat.succ_eq_add_one]
      congr 1
      rw [Nat.succ_mul]
      omega

theorem width_pos (t : dev_prop_type) : 0 < t.width := by
  cases t <;> decide

theorem property_entry_of_decodes {data : List Nat} {p : Int} {name : CharPtr}
    {t : dev_prop_type} {e : property_entry}
    (h : property_entry_of data p name t = .ok e) :
    ∃ len, load8 data (p + 3) = .ok len ∧ decodes data (p + 4).toNat t len e := by
  unfold property_entry_of at h
  obtain ⟨len, hlen, h⟩ := Run.bind_eq_ok h
  obtain ⟨val, hval, h⟩ := Run.bind_eq_ok h
  refine ⟨len, hlen, ?_⟩
  obtain ⟨ev, hb⟩ := kmemdup_eq_ok data _ _ _ hval
  have hp3 := (load8_eq_ok hlen).1
  have hw := width_pos t
  split at h
  · rename_i h1
    cases h
    refine ⟨rfl, fun _ => ⟨rfl, rfl, ?_⟩, fun hne => absurd h1 hne⟩
    subst h1
    rw [Nat.one_mul] at ev
    simp only [le_at, ev]
  · rename_i h1
    cases h
    refine ⟨rfl, fun h1' => absurd h1' h1, fun _ => ⟨rfl, rfl, ?_⟩⟩
    simp only [property_entry.elems]
    rw [Nat.mul_div_cancel _ hw]
    by_cases h0 : len = 0
    · subst h0
      simp [read_elems]
    · have hpos : 0 < len * t.width := Nat.mul_pos (by omega) hw
      exact read_elems_of_le data t.width len (p + 4) (by omega) (hb hpos).2

/-- The decoding of a Property descriptor returns whenever its fixed fields and
its `length * width` value bytes lie inside the buffer. -/
theorem property_entry_of_total (data : List Nat) (p : Nat) (name : CharPtr) (t : dev_prop_type)
    (h : p + 4 + byte data (p + 3) * t.width ≤ data.length) (h3 : p + 3 < data.length) :
    ∃ e, property_entry_of data (p : Int) name t = .ok e := by
  have e3 := load8_nat_add data p 3 h3
  simp only [Nat.cast_ofNat] at e3
  have hk := kmemdup_of_le data (byte data (p + 3) * t.width) ((p : Int) + 4) (by omega) (by omega)
  unfold property_entry_of
  rw [e3, Run.ok_bind, hk, Run.ok_bind]
  split
  · exact ⟨_, rfl⟩
  · exact ⟨_, rfl⟩

theorem property_decode_some {D : Decls} {data : List Nat} {p : Int} {name : CharPtr}
    {ty : Nat} {e : property_entry}
    (h : property_decode D data p name ty = .ok (some e)) :
    ∃ s : dev_prop_type, ty = D.prop_tag s ∧ property_entry_of data p name s = .ok e := by
  unfold property_decode at h
  split at h
  · rename_i ht
    cases hx : property_entry_of data p name .U8 with
    | ok a => rw [hx] at h; cases h; exact ⟨.U8, ht, hx⟩
    | fault => rw [hx] at h; cases h
    | fuel => rw [hx] at h; cases h
  · split at h
    · rename_i ht
      cases hx : property_entry_of data p name .U16 with
      | ok a => rw [hx] at h; cases h; exact ⟨.U16, ht, hx⟩
      | fault => rw [hx] at h; cases h
      | fuel => rw [hx] at h; cases h
    · split at h
      · rename_i ht
        cases hx : property_entry_of data p name .U32 with
        | ok a => rw [hx] at h; cases h; exact ⟨.U32, ht, hx⟩
        | fault => rw [hx] at h; cases h
        | fuel => rw [hx] at h; cases h
      · split at h
        · rename_i ht
          cases hx : property_entry_of data p name .U64 with
          | ok a => rw [hx] at h; cases h; exact ⟨.U64, ht, hx⟩
          | fault => rw [hx] at h; cases h
          | fuel => rw [hx] at h; cases h
        · cases h

theorem list_scan_spec (test : manifest_desc → Run Bool) :
    ∀ (l : List manifest_desc) (last : Option Int) (r : Option manifest_desc)
      (last' : Option Int), list_scan test l last = .ok (r, last') →
      (∀ d, r = some d → d ∈ l) ∧ (last' = last ∨ ∃ d ∈ l, last' = some d.data)
  | [], last, r, last' => by
    intro h
    unfold list_scan at h
    cases h
    exact ⟨fun d hd => (by cases hd), Or.inl rfl⟩
  | x :: xs, last, r, last' => by
    intro h
    unfold list_scan at h
    obtain ⟨hit, _, h⟩ := Run.bind_eq_ok h
    split at h
    · cases h
      refine ⟨fun d hd => ?_, Or.inr ⟨x, List.mem_cons_self _ _, rfl⟩⟩
      cases hd
      exact List.mem_cons_self _ _
    · obtain ⟨h1, h2⟩ := list_scan_spec test xs (some x.data) r last' h
      refine ⟨fun d hd => List.mem_cons_of_mem _ (h1 d hd), ?_⟩
      rcases h2 with h2 | ⟨d, hd, h2⟩
      · exact Or.inr ⟨x, List.mem_cons_self _ _, h2⟩
      · exact Or.inr ⟨d, List.mem_cons_of_mem _ hd, h2⟩

/-- Loop invariant behind `property_entry_get_decodes`: every entry that the
loop of `mikrobus_property_entry_get` adds is the decoding of a node of the
descriptor list. -/
theorem property_entry_loop_decodes (D : Decls) (u : Nat → Bool) (data : List Nat)
    (pl : BytePtr) (hD : D.prop_tags_distinct) (L0 : List manifest_desc) :
    ∀ (k i : Nat) (loc : EntryLocals) (acc : List property_entry) (m : Mach)
      (props : List property_entry) (m' : Mach),
      (∀ p, loc.desc_property = some p → ∃ d ∈ L0, d.data = p) →
      m.info.manifest_descs ⊆ L0 →
      property_entry_loop D u data pl k i loc acc m = .ok (.arr props, m') →
      ∃ rest, props = acc ++ rest ∧ rest.length = k ∧ ∀ e ∈ rest, resolved_from D data L0 e
  | 0, i, loc, acc, m, props, m' => by
    intro _ _ h
    unfold property_entry_loop at h
    cases h
    exact ⟨[], by simp, rfl, fun e he => by cases he⟩
  | k + 1, i, loc, acc, m, props, m' => by
    intro hinv hsub h
    unfold property_entry_loop at h
    dsimp only at h
    obtain ⟨loc', hloc, h⟩ := Run.bind_eq_ok h
    have hinv' : ∀ p, loc'.desc_property = some p → ∃ d ∈ L0, d.data = p := by
      split at hloc
      · obtain ⟨⟨r, last⟩, hscan, hloc⟩ := Run.bind_eq_ok hloc
        dsimp only at hloc
        have hlast : ∀ p, last = some p → ∃ d ∈ L0, d.data = p := by
          intro p hp
          rcases (list_scan_spec _ _ _ _ _ hscan).2 with hl | ⟨d, hd, hl⟩
          · exact hinv p (hl ▸ hp)
          · rw [hl] at hp
            cases hp
            exact ⟨d, hsub hd, rfl⟩
        split at hloc
        · cases hloc
          exact hlast
        · cases hloc
          exact hlast
      · cases hloc
        exact hinv
    split at h
    · cases h
    · split at h
      · cases h
      · rename_i p hp
        obtain ⟨sid, _, h⟩ := Run.bind_eq_ok h
        obtain ⟨⟨prop_name, m1⟩, hs, h⟩ := Run.bind_eq_ok h
        dsimp only at h
        obtain ⟨ty, hty, h⟩ := Run.bind_eq_ok h
        obtain ⟨e, he, h⟩ := Run.bind_eq_ok h
        split at h
        · cases h
        · rename_i e
          obtain ⟨m2, hr, h⟩ := Run.bind_eq_ok h
          have h1 : m.shrinks m1 := Mach.shrinks_trans m.shrinks_tock (string_get_shrinks hs)
          have h2 : m1.shrinks m2 := by
            split at hr
            · exact release_shrinks hr
            · cases hr
          have hsub2 : m2.info.manifest_descs ⊆ L0 := fun x hx => hsub (h1.2 (h2.2 hx))
          obtain ⟨rest, hprops, hlen, hall⟩ :=
            property_entry_loop_decodes D u data pl hD L0 k _ _ _ _ _ _ hinv' hsub2 h
          obtain ⟨d, hd, hdp⟩ := hinv' p hp
          obtain ⟨s, hs, hof⟩ := property_decode_some he
          obtain ⟨len, hl, hdec⟩ := property_entry_of_decodes hof
          refine ⟨e :: rest, by simp [hprops], by simp [hlen], ?_⟩
          intro x hx
          rcases List.mem_cons.mp hx with hx | hx
          · subst hx
            subst hdp
            refine ⟨d, hd, ty, len, hty, hl, ⟨s, hs⟩, ?_⟩
            intro t ht
            have : s = t := hD s t (hs ▸ ht)
            subst this
            exact hdec
          · exact hall x hx

/-- C9: whenever `mikrobus_property_entry_get` returns a property array, the
array has `num_properties` entries, and every entry is the decoding of a node
of the descriptor list whose type byte is one of the four integer tags: for
the element type `t` of that tag, a scalar equal to the little-endian integer
in the first `width t` value bytes when the length field is 1, and otherwise
an array of exactly `length` elements whose `i`-th element is the
little-endian integer at value offset `i * width t`. -/
theorem property_entry_get_decodes (D : Decls) (u : Nat → Bool) (data : List Nat) (m m' : Mach)
    (prop_link : BytePtr) (num_properties : Nat) (props : List property_entry)
    (hD : D.prop_tags_distinct)
    (h : mikrobus_property_entry_get D u data m prop_link num_properties = .ok (.arr props, m')) :
    props.length = num_properties
      ∧ ∀ e ∈ props, resolved_from D data m.info.manifest_descs e := by
  unfold mikrobus_property_entry_get at h
  obtain ⟨rest, hprops, hlen, hall⟩ :=
    property_entry_loop_decodes D u data prop_link hD m.info.manifest_descs num_properties 0 _ _ _
      _ _ (fun p hp => by cases hp) (fun _ hx => hx) h
  rw [List.nil_append] at hprops
  subst hprops
  exact ⟨hlen, hall⟩

theorem D0_prop_tags_distinct : D0.prop_tags_distinct := by
  intro s t
  cases s <;> cases t <;> simp [Decls.prop_tag, D0]

/-- Witness for `property_entry_get_decodes`, Scenario C: the U32 property
with length 2 and value bytes `01 00 00 00 02 00 00 00` is resolved to an
array entry whose elements are `[1, 2]`. -/
theorem property_entry_get_decodes_witness :
    ∃ e m', mikrobus_property_entry_get D0 pass manifest_u32_array state_u32_array (.arr [6]) 1
        = .ok (.arr [e], m')
      ∧ e.is_array = true ∧ e.elems manifest_u32_array = .ok [1, 2] := by
  have hrun : ∃ e m', mikrobus_property_entry_get D0 pass manifest_u32_array state_u32_array
      (.arr [6]) 1 = .ok (.arr [e], m') := ⟨_, _, rfl⟩
  obtain ⟨e, m', h⟩ := hrun
  obtain ⟨_, hall⟩ := property_entry_get_decodes D0 pass manifest_u32_array state_u32_array m'
    (.arr [6]) 1 [e] D0_prop_tags_distinct h
  obtain ⟨d, hd, ty, len, hty, hl, _, hdec⟩ := hall e (List.mem_singleton.mpr rfl)
  have hd' : d = { addr := 0, size := 16, data := 16, type := 2 } := by
    simpa [state_u32_array, Mach.set_descs, m0, info0] using hd
  subst hd'
  have ety : load8 manifest_u32_array (16 + 1) = .ok 5 := by decide
  have elen : load8 manifest_u32_array (16 + 3) = .ok 2 := by decide
  rw [ety] at hty
  rw [elen] at hl
  cases hty
  cases hl
  obtain ⟨_, _, harr⟩ := hdec .U32 rfl
  obtain ⟨ha, _, hel⟩ := harr (by decide)
  exact ⟨e, m', h, ha, by rw [hel]; decide⟩

/-! ## C12: the descriptor reader -/

theorem load16_nat (data : List Nat) (p : Nat) (h : p + 1 < data.length) :
    load16 data (p : Int) = .ok (frame_size data p) := by
  simpa [frame_size] using load16_of_lt data (p : Int) (by omega) (by simpa using h)

theorem expected_size_ok (D : Decls) (data : List Nat) (p : Nat)
    (hS : frame_type data p = D.MIKROBUS_TYPE_STRING → p + 5 < data.length)
    (hP : frame_type data p = D.MIKROBUS_TYPE_PROPERTY → p + 7 < data.length) :
    ∃ n, expected_size D data (p : Int) (frame_type data p) = .ok n := by
  unfold expected_size
  split
  · next h =>
    have e := load8_nat_add data p 5 (hS h)
    simp only [Nat.cast_ofNat] at e
    simp only [e, Run.ok_bind, Run.pure_eq]
    exact ⟨_, rfl⟩
  · split
    · next h =>
      have e := load8_nat_add data p 7 (hP h)
      simp only [Nat.cast_ofNat] at e
      simp only [e, Run.ok_bind, Run.pure_eq]
      exact ⟨_, rfl⟩
    · split
      · exact ⟨_, rfl⟩
      · exact ⟨_, rfl⟩

theorem identify_descriptor_accept (D : Decls) (data : List Nat) (m : Mach) (p size : Nat)
    (hbuf : p + size ≤ data.length) (h : accepts D data p size)
    (hS : frame_type data p = D.MIKROBUS_TYPE_STRING → p + 5 < data.length)
    (hP : frame_type data p = D.MIKROBUS_TYPE_PROPERTY → p + 7 < data.length) :
    identify_descriptor D data m (p : Int) size
      = .ok ((frame_size data p : Int), m.with_frame data p) := by
  obtain ⟨n, hn⟩ := expected_size_ok D data p hS hP
  unfold frame_type at hn
  obtain ⟨h4, hle, hty⟩ := h
  unfold sizeof_descriptor_header at h4
  have e16 := load16_nat data p (by omega)
  have e2 := load8_nat_add data p 2 (by omega)
  simp only [Nat.cast_ofNat] at e2
  have hs : ¬ size < sizeof_descriptor_header := by
    unfold sizeof_descriptor_header
    omega
  have hgt : ¬ frame_size data p > size := by omega
  unfold Decls.is_descriptor_type frame_type at hty
  simp only [identify_descriptor, hs, if_false, e16, Run.ok_bind, hgt, e2, hty, if_true, hn,
    Mach.with_frame, frame_type]

theorem identify_descriptor_reject (D : Decls) (data : List Nat) (m : Mach) (p size : Nat)
    (hbuf : p + size ≤ data.length) (h : ¬ accepts D data p size) :
    identify_descriptor D data m (p : Int) size = .ok (-(EINVAL : Int), m) := by
  by_cases hs : size < sizeof_descriptor_header
  · simp only [identify_descriptor, hs, if_true]
  · have h4 : 4 ≤ size := by
      unfold sizeof_descriptor_header at hs
      omega
    have e16 := load16_nat data p (by omega)
    have e2 := load8_nat_add data p 2 (by omega)
    simp only [Nat.cast_ofNat] at e2
    simp only [identify_descriptor, hs, if_false, e16, Run.ok_bind]
    by_cases hgt : frame_size data p > size
    · simp only [hgt, if_true]
    · have hty : ¬ (byte data (p + 2) = D.MIKROBUS_TYPE_STRING
          ∨ byte data (p + 2) = D.MIKROBUS_TYPE_PROPERTY
          ∨ byte data (p + 2) = D.MIKROBUS_TYPE_DEVICE) := by
        intro hc
        exact h ⟨by unfold sizeof_descriptor_header; omega, by omega, hc⟩
      simp only [hgt, if_false, e2, Run.ok_bind, hty]

/-- The result of `identify_descriptor` on a buffer that holds `size` bytes at
`desc` and, for a String or Property tag, the length field of the frame
(offset 5 or 7): the value is non-negative if and only if `size` is at least
the descriptor header size, the little-endian declared size is at most `size`,
and the type tag is String, Property or Device.  In that case it is the
declared size and exactly one node, with that type and that size, is appended
at the tail of the list; otherwise it is `-EINVAL` and the state is
unchanged. -/
theorem identify_descriptor_iff (D : Decls) (data : List Nat) (m : Mach) (p size : Nat)
    (hbuf : p + size ≤ data.length)
    (hS : frame_type data p = D.MIKROBUS_TYPE_STRING → p + 5 < data.length)
    (hP : frame_type data p = D.MIKROBUS_TYPE_PROPERTY → p + 7 < data.length) :
    ∃ r m', identify_descriptor D data m (p : Int) size = .ok (r, m')
      ∧ (0 ≤ r ↔ accepts D data p size)
      ∧ (accepts D data p size → r = (frame_size data p : Int)
          ∧ m'.info.manifest_descs = m.info.manifest_descs ++
              [{ addr := m.nalloc, size := frame_size data p, data := (p : Int) + 4,
                 type := frame_type data p }]
          ∧ m'.info.devices = m.info.devices)
      ∧ (¬ accepts D data p size → r = -(EINVAL : Int) ∧ m' = m) := by
  by_cases h : accepts D data p size
  · refine ⟨_, _, identify_descriptor_accept D data m p size hbuf h hS hP, ?_, ?_, ?_⟩
    · exact ⟨fun _ => h, fun _ => Int.ofNat_nonneg _⟩
    · intro _
      exact ⟨rfl, rfl, rfl⟩
    · intro hn
      exact absurd h hn
  · refine ⟨_, _, identify_descriptor_reject D data m p size hbuf h, ?_, ?_, ?_⟩
    · constructor
      · intro hr
        exact absurd hr (by decide)
      · intro ha
        exact absurd ha h
    · intro ha
      exact absurd ha h
    · intro _
      exact ⟨rfl, rfl⟩

/-- Witness for `identify_descriptor_iff`: the Device frame of
`manifest_one_device` is accepted with its declared size 20. -/
theorem identify_descriptor_iff_witness :
    ∃ r m', identify_descriptor D0 manifest_one_device m0 12 20 = .ok (r, m')
      ∧ r = 20 ∧ m' = state_one_device := by
  obtain ⟨r, m', h, _, hacc, _⟩ :=
    identify_descriptor_iff D0 manifest_one_device m0 12 20 (by decide)
      (fun h => absurd h (by decide)) (fun h => absurd h (by decide))
  have ha : accepts D0 manifest_one_device 12 20 := by
    refine ⟨by decide, by decide, Or.inr (Or.inr (by decide))⟩
  have h' : identify_descriptor D0 manifest_one_device m0 12 20 = .ok (20, state_one_device) := by
    decide
  have e : (r, m') = (20, state_one_device) := by
    have := h.symm.trans h'
    cases this
    rfl
  cases e
  exact ⟨_, _, h, rfl, rfl⟩

/-- C12 (code evaluated at the failing input): the 16-byte buffer
`manifest_bare_string` ends with a String frame that is its 4-byte descriptor
header.  At offset 12 with 4 bytes remaining the three conditions of the claim
hold (4 is the header size, the declared size 4 is at most 4, the tag is
String), and the buffer holds these 4 bytes; `identify_descriptor` then reads
`desc->string.length` at offset 17, behind the buffer, so the call has no
defined result: it neither returns the declared size and adds a node nor
returns a negative code.  The same holds for the Property frame of
`manifest_bare_property`, where `desc->property.length` at offset 19 is read,
and `mikrobus_manifest_parse` on either buffer ends in that read. -/
theorem identify_descriptor_bare_frame :
    accepts D0 manifest_bare_string 12 4
      ∧ 12 + 4 ≤ manifest_bare_string.length
      ∧ (∀ m, identify_descriptor D0 manifest_bare_string m 12 4 = .fault)
      ∧ accepts D0 manifest_bare_property 12 4
      ∧ 12 + 4 ≤ manifest_bare_property.length
      ∧ (∀ m, identify_descriptor D0 manifest_bare_property m 12 4 = .fault)
      ∧ (∀ u fuel, mikrobus_manifest_parse D0 u (fuel + 1) manifest_bare_string m0 16 = .fault)
      ∧ (∀ u fuel, mikrobus_manifest_parse D0 u (fuel + 1) manifest_bare_property m0 16
          = .fault) :=
  ⟨⟨by decide, by decide, Or.inl (by decide)⟩, by decide, fun _ => rfl,
    ⟨by decide, by decide, Or.inr (Or.inl (by decide))⟩, by decide, fun _ => rfl,
    fun _ _ => rfl, fun _ _ => rfl⟩

/-! ## C14: the descriptor loop on a well-framed body -/

theorem byte_append_mid (pre f rest : List Nat) (i : Nat) (h : i < f.length) :
    byte (pre ++ f ++ rest) (pre.length + i) = byte f i := by
  unfold byte
  rw [List.getD_eq_getElem?_getD, List.getD_eq_getElem?_getD, List.append_assoc,
    List.getElem?_append_right (by omega), Nat.add_sub_cancel_left,
    List.getElem?_append_left h]

theorem size_t_sub (a b : Nat) (h : a + b < 2 ^ 64) :
    ((((a + b : Nat) : Int) - (a : Int)) % (2 ^ 64 : Int)).toNat = b := by
  have e : ((a + b : Nat) : Int) - (a : Int) = (b : Int) := by omega
  have hb : (b : Int) < 2 ^ 64 := by
    have : b < 2 ^ 64 := by omega
    exact_mod_cast this
  rw [e, Int.emod_eq_of_lt (by omega) hb]
  simp

theorem descriptor_loop_zero (D : Decls) (data : List Nat) (fuel : Nat) (m : Mach) (desc : Int) :
    descriptor_loop D data fuel m desc 0 = .ok m := by
  cases fuel <;> simp [descriptor_loop]

/-- The descriptor loop on a body made of well-framed frames that hold their
length fields: with at least as many iterations as there are frames it stops
with one node per frame, with fewer it has not finished. -/
theorem descriptor_loop_frames (D : Decls) :
    ∀ (frames : List (List Nat)) (pre post : List Nat) (m : Mach) (fuel : Nat),
      (∀ f ∈ frames, well_framed D f) → (∀ f ∈ frames, holds_length_field D f) →
      frames.flatten.length < 2 ^ 64 →
      descriptor_loop D (pre ++ frames.flatten ++ post) fuel m (pre.length : Int)
          frames.flatten.length
        = if frames.length ≤ fuel then
            .ok { (m.set_descs (m.info.manifest_descs
                    ++ frame_nodes m.nalloc pre.length frames))
                  with nalloc := m.nalloc + frames.length }
          else .fuel
  | [], pre, post, m, fuel => by
    intro _ _ _
    simp only [List.flatten_nil, List.length_nil, descriptor_loop_zero, Nat.zero_le, if_true,
      frame_nodes, List.append_nil, Nat.add_zero]
    rfl
  | f :: fs, pre, post, m, fuel => by
    intro hwf hlf hlt
    obtain ⟨h4, hsz, hty⟩ := hwf f (List.mem_cons_self _ _)
    obtain ⟨hfS, hfP⟩ := hlf f (List.mem_cons_self _ _)
    unfold sizeof_descriptor_header at h4
    have hwf' : ∀ g ∈ fs, well_framed D g := fun g hg => hwf g (List.mem_cons_of_mem _ hg)
    have hlf' : ∀ g ∈ fs, holds_length_field D g :=
      fun g hg => hlf g (List.mem_cons_of_mem _ hg)
    simp only [List.flatten_cons, List.length_append] at hlt ⊢
    have hpos : f.length + fs.flatten.length ≠ 0 := by omega
    cases fuel with
    | zero =>
      simp only [descriptor_loop, hpos, if_false]
      simp
    | succ fuel =>
      have e0 : byte (pre ++ (f ++ fs.flatten) ++ post) pre.length = byte f 0 := by
        have := byte_append_mid pre f (fs.flatten ++ post) 0 (by omega)
        simpa [List.append_assoc] using this
      have e1 : byte (pre ++ (f ++ fs.flatten) ++ post) (pre.length + 1) = byte f 1 := by
        have := byte_append_mid pre f (fs.flatten ++ post) 1 (by omega)
        simpa [List.append_assoc] using this
      have e2 : byte (pre ++ (f ++ fs.flatten) ++ post) (pre.length + 2) = byte f 2 := by
        have := byte_append_mid pre f (fs.flatten ++ post) 2 (by omega)
        simpa [List.append_assoc] using this
      have efs : frame_size (pre ++ (f ++ fs.flatten) ++ post) pre.length = f.length := by
        rw [← hsz]
        simp only [frame_size, e0, e1, Nat.zero_add]
      have eft : frame_type (pre ++ (f ++ fs.flatten) ++ post) pre.length = frame_type f 0 := by
        simp only [frame_type, e2, Nat.zero_add]
      have hacc : accepts D (pre ++ (f ++ fs.flatten) ++ post) pre.length
          (f.length + fs.flatten.length) := by
        refine ⟨by unfold sizeof_descriptor_header; omega, by rw [efs]; omega, ?_⟩
        rw [eft]
        exact hty
      have hid := identify_descriptor_accept D (pre ++ (f ++ fs.flatten) ++ post) m pre.length
        (f.length + fs.flatten.length) (by simp only [List.length_append]; omega) hacc
        (fun h => by
          have := hfS (eft ▸ h)
          simp only [List.length_append]
          omega)
        (fun h => by
          have := hfP (eft ▸ h)
          simp only [List.length_append]
          omega)
      have ih := descriptor_loop_frames D fs (pre ++ f) post
        (m.with_frame (pre ++ (f ++ fs.flatten) ++ post) pre.length) fuel hwf' hlf' (by omega)
      have edata : pre ++ f ++ fs.flatten ++ post = pre ++ (f ++ fs.flatten) ++ post := by
        simp only [List.append_assoc]
      have elen : ((pre ++ f).length : Int) = (pre.length : Int) + (f.length : Int) := by
        simp only [List.length_append, Nat.cast_add]
      rw [edata, elen] at ih
      unfold descriptor_loop
      simp only [hpos, if_false, hid, Run.ok_bind, efs, size_t_sub f.length fs.flatten.length hlt,
        ih, List.length_cons, Nat.add_le_add_iff_right]
      by_cases hk : fs.length ≤ fuel
      · simp only [hk, if_true, Mach.with_frame, Mach.set_descs, efs, eft, frame_nodes,
          List.length_append, List.append_assoc, List.singleton_append, Run.ok.injEq,
          Mach.mk.injEq, true_and]
        simp only [List.append_assoc] at efs eft
        rw [efs, eft]
        exact ⟨rfl, by omega⟩
      · simp only [hk, if_false]

theorem frame_nodes_map (frames : List (List Nat)) :
    ∀ (a off : Nat), (frame_nodes a off frames).map (fun d => (d.type, d.size))
      = frames.map (fun f => (frame_type f 0, f.length)) := by
  induction frames with
  | nil => intro a off; rfl
  | cons f fs ih =>
    intro a off
    simp only [frame_nodes, List.map_cons, ih]

/-- The descriptor loop on a body that is the concatenation of `k` frames,
each with a type tag in String, Property, Device, a declared size equal to
its byte length (at least the descriptor header), and, for a String or
Property frame, enough bytes to hold its length field: the loop of
`mikrobus_manifest_parse` stops after exactly `k` iterations (one call of
`identify_descriptor` each): `k` iterations are enough and fewer are not.  It
stops with no byte left, `k` more nodes allocated, and the list extended by
`k` nodes that carry, in manifest order, the type and the declared size of
the frames. -/
theorem descriptor_loop_well_framed (D : Decls) (frames : List (List Nat)) (pre post : List Nat)
    (m : Mach) (hwf : ∀ f ∈ frames, well_framed D f)
    (hlf : ∀ f ∈ frames, holds_length_field D f) (hlt : frames.flatten.length < 2 ^ 64) :
    ∃ m', (∀ fuel, frames.length ≤ fuel →
            descriptor_loop D (pre ++ frames.flatten ++ post) fuel m (pre.length : Int)
              frames.flatten.length = .ok m')
      ∧ (∀ fuel, fuel < frames.length →
            descriptor_loop D (pre ++ frames.flatten ++ post) fuel m (pre.length : Int)
              frames.flatten.length = .fuel)
      ∧ m'.nalloc = m.nalloc + frames.length
      ∧ m'.info.manifest_descs
          = m.info.manifest_descs ++ frame_nodes m.nalloc pre.length frames
      ∧ (frame_nodes m.nalloc pre.length frames).map (fun d => (d.type, d.size))
          = frames.map (fun f => (frame_type f 0, f.length))
      ∧ m'.info.devices = m.info.devices := by
  refine ⟨{ (m.set_descs (m.info.manifest_descs ++ frame_nodes m.nalloc pre.length frames))
      with nalloc := m.nalloc + frames.length },
    fun fuel hf => ?_, fun fuel hf => ?_, rfl, rfl, frame_nodes_map frames _ _, rfl⟩
  · rw [descriptor_loop_frames D frames pre post m fuel hwf hlf hlt, if_pos hf]
  · rw [descriptor_loop_frames D frames pre post m fuel hwf hlf hlt, if_neg (by omega)]

/-- Witness for `descriptor_loop_well_framed`: the body of
`manifest_string_device`, a String frame of 8 bytes and a Device frame of 20
bytes, is indexed in two iterations. -/
theorem descriptor_loop_well_framed_witness :
    ∃ m', descriptor_loop D0 manifest_string_device 2 m0 12 28 = .ok m'
      ∧ descriptor_loop D0 manifest_string_device 1 m0 12 28 = .fuel
      ∧ m'.info.manifest_descs.map (fun d => (d.type, d.size)) = [(1, 8), (3, 20)] := by
  have hwf : ∀ f ∈ [frame_string7, frame_device1], well_framed D0 f := by
    intro f hf
    simp only [List.mem_cons, List.mem_singleton, List.not_mem_nil, or_false] at hf
    rcases hf with rfl | rfl
    · exact ⟨by decide, by decide, Or.inl (by decide)⟩
    · exact ⟨by decide, by decide, Or.inr (Or.inr (by decide))⟩
  have hlf : ∀ f ∈ [frame_string7, frame_device1], holds_length_field D0 f := by
    intro f hf
    simp only [List.mem_cons, List.mem_singleton, List.not_mem_nil, or_false] at hf
    rcases hf with rfl | rfl
    · exact ⟨fun _ => by decide, fun _ => by decide⟩
    · exact ⟨fun h => absurd h (by decide), fun h => absurd h (by decide)⟩
  obtain ⟨m', hok, hfuel, _, hdescs, hmap, _⟩ :=
    descriptor_loop_well_framed D0 [frame_string7, frame_device1] (header0 40 0 1) [] m0 hwf
      hlf (by decide)
  refine ⟨m', hok 2 (by decide), hfuel 1 (by decide), ?_⟩
  rw [hdescs, List.map_append, hmap]
  decide

/-- C14 (code evaluated at the failing input): the body of
`manifest_device_bare_property` is the concatenation of two frames, the Device
frame `frame_device1` (20 bytes) and the Property frame `frame_bare_property`
(4 bytes); each has a tag in String, Property, Device and a declared size
equal to its byte length, which is at least the descriptor header size.  The
first call of `identify_descriptor` adds the Device node and leaves 4 bytes
(one iteration is not enough); the second call reads `desc->property.length`
at offset 39, behind the 36-byte buffer.  The loop does not stop after two
calls with two entries: for every number of iterations from 2 on it ends in
that read, and so does `mikrobus_manifest_parse`. -/
theorem descriptor_loop_bare_frame :
    manifest_device_bare_property
        = header0 36 0 1 ++ [frame_device1, frame_bare_property].flatten
      ∧ well_framed D0 frame_device1
      ∧ well_framed D0 frame_bare_property
      ∧ descriptor_loop D0 manifest_device_bare_property 1 m0 12 24 = .fuel
      ∧ (∀ fuel, descriptor_loop D0 manifest_device_bare_property (fuel + 2) m0 12 24 = .fault)
      ∧ (∀ u fuel, mikrobus_manifest_parse D0 u (fuel + 2) manifest_device_bare_property m0 36
          = .fault) :=
  ⟨rfl, ⟨by decide, by decide, Or.inr (Or.inr (by decide))⟩,
    ⟨by decide, by decide, Or.inr (Or.inl (by decide))⟩, rfl, fun _ => rfl, fun _ _ => rfl⟩

/-! ## C11: the list is empty after a parse -/

/-- Whenever `mikrobus_manifest_parse`, started on an empty descriptor list,
returns, the descriptor list is empty on return; and once the three header
checks have passed the returned value is not `false`. -/
theorem parse_releases_all (D : Decls) (u : Nat → Bool) (fuel : Nat) (data : List Nat)
    (m m' : Mach) (size : Nat) (b : Bool)
    (hempty : m.info.manifest_descs = [])
    (hbuf : size ≤ data.length)
    (h : mikrobus_manifest_parse D u fuel data m size = .ok (b, m')) :
    m'.info.manifest_descs = []
      ∧ (D.sizeof_manifest_header ≤ size → byte data 0 + 256 * byte data 1 = size →
          byte data 2 ≤ D.MIKROBUS_VERSION_MAJOR → b = true) := by
  constructor
  · unfold mikrobus_manifest_parse at h
    split at h
    · cases h
      exact hempty
    · split at h
      · cases h
        exact hempty
      · obtain ⟨_, _, h⟩ := Run.bind_eq_ok h
        split at h
        · cases h
          exact hempty
        · obtain ⟨_, _, h⟩ := Run.bind_eq_ok h
          split at h
          · cases h
            exact hempty
          · obtain ⟨_, _, h⟩ := Run.bind_eq_ok h
            obtain ⟨_, _, h⟩ := Run.bind_eq_ok h
            obtain ⟨⟨_, _⟩, _, h⟩ := Run.bind_eq_ok h
            dsimp only at h
            obtain ⟨_, _, h⟩ := Run.bind_eq_ok h
            obtain ⟨_, _, h⟩ := Run.bind_eq_ok h
            obtain ⟨_, _, h⟩ := Run.bind_eq_ok h
            obtain ⟨_, _, h⟩ := Run.bind_eq_ok h
            obtain ⟨⟨_, _⟩, _, h⟩ := Run.bind_eq_ok h
            dsimp only at h
            cases h
            rfl
  · intro hsize hdecl hver
    cases b with
    | true => rfl
    | false =>
      exact absurd h
        (parse_never_false_behind_header D u fuel data m size hempty hbuf hsize hdecl hver m')

/-- Witness for `parse_releases_all`: `manifest_string_device` holds a String
descriptor that nothing references; the parse returns `true` with an empty
descriptor list. -/
theorem parse_releases_all_witness :
    ∃ m', mikrobus_manifest_parse D0 pass 16 manifest_string_device m0 40 = .ok (true, m')
      ∧ m'.info.manifest_descs = [] := by
  have hrun : ∃ b m', mikrobus_manifest_parse D0 pass 16 manifest_string_device m0 40
      = .ok (b, m') := ⟨_, _, rfl⟩
  obtain ⟨b, m', h⟩ := hrun
  obtain ⟨hdescs, hb⟩ :=
    parse_releases_all D0 pass 16 manifest_string_device m0 m' 40 b rfl (by decide) h
  have hb' : b = true := hb (by decide) (by decide) (by decide)
  subst hb'
  exact ⟨m', h, hdescs⟩

/-- C11 (code evaluated at the failing input): `manifest_one_device` (one
Device descriptor) is parsed to `true` with the device attached and an empty
descriptor list when the indeterminate test of
`mikrobus_manifest_parse_devices` passes.  `manifest_device_string` adds a
String descriptor (id 7) behind the same Device descriptor, and
`manifest_device_property` a Property descriptor (id 5); neither the header nor
the device references them.  With the test passing the loop of
`mikrobus_manifest_parse_devices` hands the leftover node to
`mikrobus_manifest_attach_device`, which reads 16 bytes of a Device body at its
payload and leaves the buffer: the parse has no defined result.  With the
test failing the parse returns `true` with an empty descriptor list, and no
device is attached. -/
theorem parse_leftover_descriptor :
    (mikrobus_manifest_parse D0 pass 16 manifest_one_device m0 32).bind
          (fun r => .ok (r.1, r.2.info.devices.map (fun d => d.id), r.2.info.manifest_descs))
        = .ok (true, [1], [])
      ∧ (indexed manifest_device_string 40).bind
          (fun m => .ok (m.info.manifest_descs.map (fun d => (d.data, d.type))))
          = .ok [(16, 3), (36, 1)]
      ∧ mikrobus_manifest_parse D0 pass 16 manifest_device_string m0 40 = .fault
      ∧ (mikrobus_manifest_parse D0 skip 16 manifest_device_string m0 40).bind
          (fun r => .ok (r.1, r.2.info.devices.map (fun d => d.id), r.2.info.manifest_descs))
          = .ok (true, [], [])
      ∧ (indexed manifest_device_property 44).bind
          (fun m => .ok (m.info.manifest_descs.map (fun d => (d.data, d.type))))
          = .ok [(16, 3), (36, 2)]
      ∧ mikrobus_manifest_parse D0 pass 16 manifest_device_property m0 44 = .fault
      ∧ (mikrobus_manifest_parse D0 skip 16 manifest_device_property m0 44).bind
          (fun r => .ok (r.1, r.2.info.devices.map (fun d => d.id), r.2.info.manifest_descs))
          = .ok (true, [], []) :=
  ⟨rfl, rfl, rfl, rfl, rfl, rfl, rfl⟩

/-! ## C20: the value returned by the header validation -/

theorem header_validate_value (D : Decls) (data : List Nat) (size : Nat)
    (hbuf : size ≤ data.length) :
    mikrobus_manifest_header_validate D data size
      = .ok (if header_checks D data size then frame_size data 0 else 0) := by
  unfold header_checks frame_size
  by_cases hs : size < D.sizeof_manifest_header
  · have : ¬ D.sizeof_manifest_header ≤ size := by omega
    simp [mikrobus_manifest_header_validate, hs, this]
  · have h9 : 9 ≤ data.length := by
      unfold Decls.sizeof_manifest_header at hs
      omega
    have e16 : load16 data 0 = .ok (byte data 0 + 256 * byte data 1) := by
      simpa using load16_of_lt data 0 (by omega) (by simpa using (by omega : 1 < data.length))
    have e2 : load8 data 2 = .ok (byte data 2) := by simpa using load8_nat data 2 (by omega)
    have e4 : load8 data 4 = .ok (byte data 4) := by simpa using load8_nat data 4 (by omega)
    have e5 : load8 data 5 = .ok (byte data 5) := by simpa using load8_nat data 5 (by omega)
    have hge : D.sizeof_manifest_header ≤ size := by omega
    simp only [mikrobus_manifest_header_validate, hs, if_false, e16, e2, e4, e5, Run.ok_bind,
      hge, true_and, Nat.zero_add]
    by_cases hv : byte data 2 > D.MIKROBUS_VERSION_MAJOR
    · have : ¬ byte data 2 ≤ D.MIKROBUS_VERSION_MAJOR := by omega
      simp [hv, this]
    · have hv2 : byte data 2 ≤ D.MIKROBUS_VERSION_MAJOR := by omega
      by_cases hc : byte data 4 < 1
      · have : ¬ 1 ≤ byte data 4 := by omega
        simp [hv, hv2, hc, this]
      · have hc2 : 1 ≤ byte data 4 := by omega
        by_cases hn : byte data 5 < 1
        · have : ¬ 1 ≤ byte data 5 := by omega
          simp [hv, hv2, hc, hc2, hn, this]
        · have hn2 : 1 ≤ byte data 5 := by omega
          simp [hv, hv2, hc, hc2, hn, hn2]

/-- C20, counterexample: the 12-byte header `header_size_zero` passes the
four checks of `mikrobus_manifest_header_validate` (length, major version,
name string id, device count), and the function returns 0, the value of its
size field. -/
theorem header_validate_zero_size :
    header_checks D0 header_size_zero 12
      ∧ mikrobus_manifest_header_validate D0 header_size_zero 12 = .ok 0 :=
  ⟨⟨by decide, by decide, by decide, by decide⟩, by decide⟩

/-- C20, amended: on a buffer that holds `size` bytes,
`mikrobus_manifest_header_validate` always returns a value (it signals failure
only through the value 0); when the four header checks pass the value is the
header's little-endian size field, so a return of 0 occurs if and only if one
of the checks failed or the size field itself is 0. -/
theorem header_validate_zero_iff (D : Decls) (data : List Nat) (size : Nat)
    (hbuf : size ≤ data.length) :
    ∃ r, mikrobus_manifest_header_validate D data size = .ok r
      ∧ (header_checks D data size → r = frame_size data 0)
      ∧ (r = 0 ↔ (¬ header_checks D data size ∨ frame_size data 0 = 0)) := by
  refine ⟨_, header_validate_value D data size hbuf, ?_, ?_⟩
  · intro hc
    rw [if_pos hc]
  · by_cases hc : header_checks D data size
    · rw [if_pos hc]
      exact ⟨fun h => Or.inr h, fun h => h.elim (fun hn => absurd hc hn) id⟩
    · rw [if_neg hc]
      exact ⟨fun _ => Or.inl hc, fun _ => rfl⟩

/-- Witness for `header_validate_zero_iff`: a header that declares 12 bytes
gives 12. -/
theorem header_validate_zero_iff_witness :
    ∃ r, mikrobus_manifest_header_validate D0 (header0 12 2 1) 12 = .ok r ∧ r = 12 := by
  obtain ⟨r, h, hval, _⟩ := header_validate_zero_iff D0 (header0 12 2 1) 12 (by decide)
  have hc : header_checks D0 (header0 12 2 1) 12 := ⟨by decide, by decide, by decide, by decide⟩
  exact ⟨r, h, by rw [hval hc]; decide⟩

/-! ## C13: the expected size is computed and not checked -/

theorem descriptor_loop_zero_size_frame :
    ∀ (fuel : Nat) (m : Mach), descriptor_loop D0 manifest_zero_size fuel m 12 8 = .fuel
  | 0, m => rfl
  | fuel + 1, m => by
    have hid : identify_descriptor D0 manifest_zero_size m 12 8
        = .ok (0, m.with_frame manifest_zero_size 12) := rfl
    unfold descriptor_loop
    simp only [hid, Run.ok_bind]
    exact descriptor_loop_zero_size_frame fuel _

/-- C13 (code evaluated at the failing input): the frame of
`manifest_zero_size` declares size 0 and type String; `identify_descriptor`
accepts it, returns 0 and adds a node of size 0, although the `expected_size`
it computes is 8.  The loop of `mikrobus_manifest_parse` then makes no
progress: for every number of iterations the remaining size is still 8.  In
`manifest_header_only` a String frame that declares 4 bytes, less than the
8 bytes expected, is accepted as well. -/
theorem identify_accepts_short_frames :
    (∀ m, identify_descriptor D0 manifest_zero_size m 12 8
        = .ok (0, m.with_frame manifest_zero_size 12))
      ∧ frame_size manifest_zero_size 12 = 0
      ∧ expected_size D0 manifest_zero_size 12 1 = .ok 8
      ∧ (∀ fuel m, descriptor_loop D0 manifest_zero_size fuel m 12 8 = .fuel)
      ∧ (∀ u fuel, mikrobus_manifest_parse D0 u fuel manifest_zero_size m0 20 = .fuel)
      ∧ expected_size D0 manifest_header_only 12 1 = .ok 8
      ∧ (indexed manifest_header_only 24).bind
          (fun m => .ok (m.info.manifest_descs.map (fun d => (d.type, d.size))))
          = .ok [(1, 4), (1, 8)] := by
  refine ⟨fun _ => rfl, by decide, by decide, descriptor_loop_zero_size_frame, ?_, by decide,
    by decide⟩
  intro u fuel
  have h := descriptor_loop_zero_size_frame fuel m0
  have e16 : load16 manifest_zero_size 0 = .ok 20 := by decide
  have e2 : load8 manifest_zero_size 2 = .ok 0 := by decide
  simp only [mikrobus_manifest_parse, e16, e2, Run.ok_bind]
  have hl : descriptor_loop D0 manifest_zero_size fuel m0 (D0.sizeof_manifest_header : Nat)
      (20 - D0.sizeof_manifest_header) = .fuel := h
  rw [hl]
  rfl

/-! ## C15, C16: what the string lookup selects -/

/-- C15 (code evaluated at the failing input): `mikrobus_string_get(info, 0)`
returns `NULL` and leaves the state unchanged, for every list.  For a nonzero
id the claim fails: the index of `manifest_property_string` holds a Property
descriptor with id 1 (payload at 16) and the String descriptor id 1 `"a"`
(payload at 28).  With the indeterminate test passing,
`mikrobus_string_get(info, 1)` returns the buffer `[0, 1, 42, 0]` copied from
the Property descriptor and removes that node, the String node stays; with
the test failing it returns `ERR_PTR(-ENOENT)` and removes nothing. -/
theorem string_get_takes_property :
    (∀ u data m, mikrobus_string_get u data m 0 = .ok (.null, m))
      ∧ (indexed manifest_property_string 32).bind
          (fun m => .ok (m.info.manifest_descs.map (fun d => (d.data, d.type))))
          = .ok [(16, 2), (28, 1)]
      ∧ (indexed manifest_property_string 32).bind
          (fun m => (mikrobus_string_get pass manifest_property_string m 1).bind
            (fun r => .ok (r.1, r.2.info.manifest_descs.map (fun d => (d.data, d.type)))))
          = .ok (.str [0, 1, 42, 0], [(28, 1)])
      ∧ (indexed manifest_property_string 32).bind
          (fun m => (mikrobus_string_get skip manifest_property_string m 1).bind
            (fun r => .ok (r.1, r.2.info.manifest_descs.map (fun d => (d.data, d.type)))))
          = .ok (.err ENOENT, [(16, 2), (28, 1)]) :=
  ⟨fun _ _ _ => rfl, by decide, by decide, by decide⟩

/-- C16 (code evaluated at the failing input): the index of
`manifest_one_device` holds one Device descriptor (id 1) and no String
descriptor; with the indeterminate test passing,
`mikrobus_string_get(info, 1)` selects the Device node, returns a buffer
copied from it and removes it, instead of returning `ERR_PTR(-ENOENT)`.  In
the index of `manifest_long_link` (a Device and three Property descriptors, no
String) `mikrobus_string_get(info, 6)` selects the Property descriptor with
id 6. -/
theorem string_get_ignores_type :
    (indexed manifest_one_device 32).bind
          (fun m => .ok (m.info.manifest_descs.map (fun d => (d.data, d.type))))
        = .ok [(16, 3)]
      ∧ (indexed manifest_one_device 32).bind
          (fun m => (mikrobus_string_get pass manifest_one_device m 1).bind
            (fun r => .ok (r.1, r.2.info.manifest_descs)))
          = .ok (.str [0], [])
      ∧ (indexed manifest_long_link 68).bind
          (fun m => .ok (m.info.manifest_descs.map (fun d => (d.data, d.type))))
          = .ok [(16, 3), (36, 2), (48, 2), (60, 2)]
      ∧ (indexed manifest_long_link 68).bind
          (fun m => (mikrobus_string_get pass manifest_long_link m 6).bind
            (fun r => .ok (r.1, r.2.info.manifest_descs.map (fun d => (d.data, d.type)))))
          = .ok (.str [0, 1, 42, 0], [(16, 3), (36, 2), (60, 2)]) := by
  decide

/-! ## C17: what the property lookup returns -/

/-- C17 (code evaluated at the failing input): the id list `[1]` matches the
one Property descriptor (U8, value 42, named by string id 1) of the manifest;
the String descriptor `"x"` also has id 1.  String first: with every
indeterminate test passing, the walk of `mikrobus_property_entry_get` selects
the String node and the function returns `ERR_PTR(-EINVAL)`.  Property first:
the name lookup selects and frees the Property node itself, and the release
that follows unlinks it a second time (fault); when only the first test
passes, the function returns one property with value 42 whose name is
`ERR_PTR(-ENOENT)`, and the String node stays; when every test fails it
returns `ERR_PTR(-ENOENT)`. -/
theorem property_entry_get_same_id :
    (indexed manifest_string_named_property 32).bind
          (fun m => (mikrobus_property_entry_get D0 pass manifest_string_named_property m
            (.arr [1]) 1).bind (fun r => .ok r.1)) = .ok (.err EINVAL)
      ∧ (indexed manifest_named_property_string 32).bind
          (fun m => mikrobus_property_entry_get D0 pass manifest_named_property_string m
            (.arr [1]) 1) = .fault
      ∧ (indexed manifest_named_property_string 32).bind
          (fun m => (mikrobus_property_entry_get D0 (fun n => n == 0)
            manifest_named_property_string m (.arr [1]) 1).bind
              (fun r => .ok (r.1, r.2.info.manifest_descs.map (fun d => (d.data, d.type)))))
          = .ok (.arr [{ name := .err ENOENT, length := 1, is_array := false, type := .U8,
                         value := 42, pointer := 0 }], [(28, 1)])
      ∧ (indexed manifest_named_property_string 32).bind
          (fun m => (mikrobus_property_entry_get D0 skip manifest_named_property_string m
            (.arr [1]) 1).bind (fun r => .ok r.1)) = .ok (.err ENOENT) := by
  decide

/-! ## C19: GPIO resources -/

/-- C19 (code evaluated at the failing input): the Device descriptor of
`manifest_gpio_missing` declares one GPIO resource, its GPIO link array holds
the id 7, and no descriptor has id 7.  `mikrobus_manifest_attach_device`
returns `0` and appends the device, with a zeroed row in the lookup table,
whether the indeterminate tests pass or fail.  In `manifest_gpio_present`,
where a Property with id 7 (value 13) named by the string `"rst"` exists, the
row is pin 13 with name `"rst"`. -/
theorem attach_device_gpio_missing :
    (indexed manifest_gpio_missing 44).bind
          (fun m => (mikrobus_manifest_attach_device D0 pass manifest_gpio_missing m 16).bind
            (fun r => .ok (r.1, r.2.info.devices.map (fun d => (d.id, d.gpio_lookup)))))
        = .ok (0, [(1, some [{ chip_hwnum := 0, con_id := .null }])])
      ∧ (indexed manifest_gpio_missing 44).bind
          (fun m => (mikrobus_manifest_attach_device D0 skip manifest_gpio_missing m 16).bind
            (fun r => .ok (r.1, r.2.info.devices.map (fun d => (d.id, d.gpio_lookup)))))
        = .ok (0, [(1, some [{ chip_hwnum := 0, con_id := .null }])])
      ∧ (indexed manifest_gpio_present 68).bind
          (fun m => (mikrobus_manifest_attach_device D0 pass manifest_gpio_present m 16).bind
            (fun r => .ok (r.1, r.2.info.devices.map (fun d => (d.id, d.gpio_lookup)))))
        = .ok (0, [(1, some [{ chip_hwnum := 13, con_id := .str [114, 115, 116, 0] }])]) :=
  ⟨rfl, rfl, rfl⟩

/-! ## C18: properties that are not integers -/

/-- C18 (code evaluated at the failing input): the index of
`manifest_string_then_link` holds a String descriptor with id 5 (payload at 16)
and a Property descriptor with id 5 and type tag Link (payload at 28), so the
id list `[5]` matches a Link-typed Property descriptor.  With the indeterminate
test passing, the walk of `mikrobus_property_entry_get` stops at the String
node, whose payload bytes `05 03 00 01 2a` are read as a U8 property of
length 1: the function returns a property list with the one entry 42 and
removes the String node, instead of returning `ERR_PTR(-EINVAL)`.  With the
test failing the walk is skipped and the function returns
`ERR_PTR(-ENOENT)`.  In the index of `manifest_link_property`, where the
Link-typed Property with id 5 is the first node, the id list `[5]` gives
`ERR_PTR(-EINVAL)` when the test passes and `ERR_PTR(-ENOENT)` when it
fails. -/
theorem property_entry_get_link_tag :
    (indexed manifest_string_then_link 36).bind
          (fun m => .ok (m.info.manifest_descs.map (fun d => (d.data, d.type))))
        = .ok [(16, 1), (28, 2)]
      ∧ load8 manifest_string_then_link 28 = .ok 5
      ∧ load8 manifest_string_then_link 29 = .ok D0.MIKROBUS_PROPERTY_TYPE_LINK
      ∧ (indexed manifest_string_then_link 36).bind
          (fun m => (mikrobus_property_entry_get D0 pass manifest_string_then_link m
            (.arr [5]) 1).bind
              (fun r => .ok (r.1, r.2.info.manifest_descs.map (fun d => (d.data, d.type)))))
          = .ok (.arr [u8_entry 42], [(28, 2)])
      ∧ (indexed manifest_string_then_link 36).bind
          (fun m => (mikrobus_property_entry_get D0 skip manifest_string_then_link m
            (.arr [5]) 1).bind
              (fun r => .ok (r.1, r.2.info.manifest_descs.map (fun d => (d.data, d.type)))))
          = .ok (.err ENOENT, [(16, 1), (28, 2)])
      ∧ (indexed manifest_link_property 36).bind
          (fun m => (mikrobus_property_entry_get D0 pass manifest_link_property m
            (.arr [5]) 1).bind (fun r => .ok r.1)) = .ok (.err EINVAL)
      ∧ (indexed manifest_link_property 36).bind
          (fun m => (mikrobus_property_entry_get D0 skip manifest_link_property m
            (.arr [5]) 1).bind (fun r => .ok r.1)) = .ok (.err ENOENT) :=
  ⟨rfl, rfl, rfl, rfl, rfl, rfl, rfl⟩

/-! ## A family of manifests on which the parse returns -/

/-- A manifest made of a header without name string and a body of well-framed
frames that hold their length fields is parsed to the end whenever the indeterminate test of
`mikrobus_manifest_parse_devices` fails: the function returns `true`, with
an empty descriptor list, however many of the descriptors nothing
references. -/
theorem parse_returns_of_frames (D : Decls) (u : Nat → Bool) (fuel : Nat) (hdr : List Nat)
    (frames : List (List Nat)) (m : Mach)
    (hempty : m.info.manifest_descs = [])
    (hhdr : hdr.length = D.sizeof_manifest_header)
    (hdecl : byte hdr 0 + 256 * byte hdr 1 = hdr.length + frames.flatten.length)
    (hver : byte hdr 2 ≤ D.MIKROBUS_VERSION_MAJOR)
    (hname : byte hdr 4 = 0)
    (hwf : ∀ f ∈ frames, well_framed D f)
    (hlf : ∀ f ∈ frames, holds_length_field D f)
    (hfuel : frames.length ≤ fuel)
    (hskip : u m.tick = false) :
    ∃ m', mikrobus_manifest_parse D u fuel (hdr ++ frames.flatten) m
        (hdr.length + frames.flatten.length) = .ok (true, m')
      ∧ m'.info.manifest_descs = [] := by
  have h9 : 9 ≤ hdr.length := by
    rw [hhdr]
    unfold Decls.sizeof_manifest_header
    omega
  have hb : ∀ i, i < hdr.length → byte (hdr ++ frames.flatten) i = byte hdr i := by
    intro i hi
    have := byte_append_mid [] hdr frames.flatten i hi
    simpa using this
  have hlen : (hdr ++ frames.flatten).length = hdr.length + frames.flatten.length :=
    List.length_append _ _
  have hlt : frames.flatten.length < 2 ^ 64 := by
    have b0 := byte_lt hdr 0
    have b1 := byte_lt hdr 1
    omega
  have hloop := descriptor_loop_frames D frames hdr [] m fuel hwf hlf hlt
  rw [List.append_nil, if_pos hfuel, hhdr] at hloop
  have e16 : load16 (hdr ++ frames.flatten) 0
      = .ok (hdr.length + frames.flatten.length) := by
    have := load16_of_lt (hdr ++ frames.flatten) 0 (by omega)
      (by simpa using (by omega : 1 < (hdr ++ frames.flatten).length))
    simpa [hb 0 (by omega), hb 1 (by omega), hdecl] using this
  have e2 : load8 (hdr ++ frames.flatten) 2 = .ok (byte hdr 2) := by
    simpa [hb 2 (by omega)] using load8_nat (hdr ++ frames.flatten) 2 (by omega)
  have e4 : load8 (hdr ++ frames.flatten) 4 = .ok 0 := by
    simpa [hb 4 (by omega), hname] using load8_nat (hdr ++ frames.flatten) 4 (by omega)
  have e5 : load8 (hdr ++ frames.flatten) 5 = .ok (byte hdr 5) := by
    simpa [hb 5 (by omega)] using load8_nat (hdr ++ frames.flatten) 5 (by omega)
  have e6 : load8 (hdr ++ frames.flatten) 6 = .ok (byte hdr 6) := by
    simpa [hb 6 (by omega)] using load8_nat (hdr ++ frames.flatten) 6 (by omega)
  have e7 : load8 (hdr ++ frames.flatten) 7 = .ok (byte hdr 7) := by
    simpa [hb 7 (by omega)] using load8_nat (hdr ++ frames.flatten) 7 (by omega)
  have e8 : load8 (hdr ++ frames.flatten) 8 = .ok (byte hdr 8) := by
    simpa [hb 8 (by omega)] using load8_nat (hdr ++ frames.flatten) 8 (by omega)
  have hs : ¬ hdr.length + frames.flatten.length < D.sizeof_manifest_header := by omega
  have hv : ¬ byte hdr 2 > D.MIKROBUS_VERSION_MAJOR := by omega
  have hsub : hdr.length + frames.flatten.length - D.sizeof_manifest_header
      = frames.flatten.length := by omega
  simp only [mikrobus_manifest_parse, hempty, List.isEmpty_nil, Bool.not_true,
    Bool.false_eq_true, if_false, hs, e16, Run.ok_bind, ne_eq, not_true_eq_false, e2, hv, hsub,
    hloop, e4, e5, e6, e7, e8, mikrobus_string_get, if_true, mikrobus_manifest_parse_devices,
    Mach.set_descs, hskip, Mach.tock]
  split
  · exact ⟨_, rfl, rfl⟩
  · exact ⟨_, rfl, rfl⟩

end Mikrobus
